import Mathlib

/-!
Verification development for a Shopify <-> Zoho synchronization bridge.

The TypeScript sources are shallowly embedded below:
* `api/shopify.ts` — storefront client (`findVariantBySKU`, `updateVariantPrice`,
  `setInventoryLevel`, location resolution);
* `api/zoho.ts` — backend client (`findZohoItemBySKU`, contacts, sales orders,
  paged item listing);
* `api/actions/syncZohoToShopify.ts` — the paginated sync loop;
* `api/actions/pushShopifyOrdersToZoho.ts` — the order push action;
* `api/routes/zoho/POST-webhook.ts` — the backend inventory webhook handler;
* `api/routes/shopify/POST-order-created.ts` — the storefront order webhook handler.

Modelling conventions:
* Loosely-typed JSON payload fields become `JVal` (null/undefined collapse into
  `JVal.nullish`, as the code only distinguishes them through `== null` / `??`).
* External primitives that the code calls but does not define (HMAC digests,
  base64 decoding, JavaScript `Number()` parsing, the remote side of the
  Shopify `variants.json?sku=` search filter) are fields of a `Host` structure;
  every theorem quantifies over the host.
* The two remote systems are the only state.  Zoho is never mutated along the
  verified flows (contact/sales-order creation is recorded in the call trace),
  so it is a static `ZohoEnv`.  Shopify state (`ShopifyState`) carries the
  variants (whose prices the code mutates) and the inventory levels (which
  `inventory_levels/set.json` mutates); the remote effect of a `PUT`/`POST` is
  axiomatized as the corresponding record update.
* Every outbound vendor request is recorded in a `Call` trace.
* Fallible calls return `Except String`; a thrown JS `Error` is `.error msg`.
-/

namespace SyncBridge

/-- JavaScript value occurring in a loosely typed payload field.  `null` and
`undefined` are collapsed into `nullish`: the embedded code only ever tests
them through `== null`, `?? `, truthiness or `typeof`, which do not separate
the claims' behavior. -/
inductive JVal where
  | nullish
  | num (n : Int)
  | str (s : String)
  | jbool (b : Bool)
deriving Repr, DecidableEq

/-- JavaScript truthiness of a `JVal` (NaN is not modelled; `num` is finite). -/
def JVal.truthy : JVal → Bool
  | .nullish => false
  | .num n => n != 0
  | .str s => s != ""
  | .jbool b => b

/-- JavaScript `a ?? b` on payload values. -/
def jsNullish (a b : JVal) : JVal :=
  match a with
  | .nullish => b
  | v => v

/-- JavaScript truthiness of an optional string (absent and `""` are falsy). -/
def truthyOptStr : Option String → Bool
  | some s => s != ""
  | none => false

/-- JavaScript `a || b` where both operands are `string | undefined`. -/
def orT (a b : Option String) : Option String :=
  match a with
  | some s => if s = "" then b else some s
  | none => b

/-- JavaScript `s.trim()`: strip leading and trailing whitespace (computed on
the character list so that concrete instances evaluate). -/
def jsTrim (s : String) : String :=
  String.mk (((s.data.dropWhile Char.isWhitespace).reverse.dropWhile
    Char.isWhitespace).reverse)

/-- JavaScript `s.toLowerCase()` on the character list. -/
def jsToLower (s : String) : String :=
  String.mk (s.data.map Char.toLower)

/-- JavaScript `s.split(c)[0]`: the prefix before the first occurrence of a
character. -/
def jsSplitFirst (s : String) (c : Char) : String :=
  String.mk (s.data.takeWhile (· ≠ c))

/-- External primitives used by the code but implemented by the JS runtime /
vendor remotes.  All theorems hold for every host. -/
structure Host where
  /-- JavaScript `Number(s)` followed by the `Number.isFinite` test of
  `coerceNumber`; `none` means not finite. -/
  parseNum : String → Option Int
  /-- `crypto.createHmac("sha256", secret).update(body).digest("base64")`. -/
  hmacBase64 : String → String → String
  /-- `crypto.createHmac("sha256", secret).update(body).digest("hex")`. -/
  hmacHex : String → String → String
  /-- `Buffer.from(s, "base64")` as a byte list. -/
  b64decode : String → List Nat
  /-- Remote filter applied by Shopify to `variants.json?sku=q`: which variant
  skus are returned for the query `q`.  It may only inspect the sku. -/
  variantMatch : String → Option String → Bool

/-- Source `coerceNumber` (POST-webhook.ts): `null`/`undefined` give
`undefined`; strings go through `Number()`; non-number non-string values fail
the `Number.isFinite` test. -/
def coerceNumber (host : Host) : JVal → Option Int
  | .nullish => none
  | .num n => some n
  | .str s => host.parseNum s
  | .jbool _ => none

/-- Source `extractString` (POST-webhook.ts). -/
def extractString : JVal → Option String
  | .str s => some s
  | _ => none

/-! ## Shopify model (api/shopify.ts) -/

/-- A storefront variant as used by the code (`variants.json` row). -/
structure Variant where
  id : Nat
  sku : Option String
  price : String
  inventory_item_id : Nat
deriving Repr, DecidableEq

/-- The storefront remote state.  `variants` and `inv` are mutated by the
embedded calls; `primaryLocation`, `fallbackLocation` (the optional
`DEFAULT_LOCATION_ID` secret) and `levelsFor` (pre-existing inventory-level
rows per inventory item) are only read. -/
structure ShopifyState where
  variants : List Variant
  inv : Nat → Nat → Int
  primaryLocation : Option Nat
  fallbackLocation : Option Nat
  levelsFor : Nat → List Nat

/-- A Zoho sales-order line (`ZohoLineItem` in api/zoho.ts). -/
structure SalesLine where
  item_id : Nat
  name : String
  rate : JVal
  quantity : Int
deriving Repr, DecidableEq

/-- One outbound vendor request. -/
inductive Call where
  | zListItems (page : Nat)
  | zGetItem (id : JVal)
  | zSearchItems (text : String)
  | zContactSearch (email : String)
  | zContactCreate (contactName : String) (email : String)
  | zCreateSalesOrder (customerId : Nat) (referenceNumber : String)
      (lineItems : List SalesLine)
  | sVariantSearch (sku : String)
  | sPriceUpdate (variantId : Nat) (price : String)
  | sInvSet (locationId : Nat) (inventoryItemId : Nat) (qty : Int)
  | sGetShop
  | sGetLevels (inventoryItemId : Nat)
deriving Repr, DecidableEq

/-- Source `findVariantBySKU`: fetch `variants.json?sku=...`, pick the exact
sku match, else the first returned variant, else `null`. -/
def findVariantBySKU (host : Host) (st : ShopifyState) (sku : String) :
    Option Variant :=
  let variants := st.variants.filter (fun v => host.variantMatch sku v.sku)
  match variants.find? (fun v => v.sku = some sku) with
  | some v => some v
  | none => variants.head?

/-- Source `updateVariantPrice`: `PUT variants/{id}.json` with
`price: String(price)`; the remote sets that variant's price. -/
def updateVariantPrice (st : ShopifyState) (variantId : Nat) (price : String) :
    ShopifyState × List Call :=
  ({ st with
      variants := st.variants.map fun v =>
        if v.id = variantId then { v with price := price } else v },
    [Call.sPriceUpdate variantId price])

/-- Source `getPrimaryLocationId`: `shop.json` primary location if truthy,
else `DEFAULT_LOCATION_ID`, else throw. -/
def getPrimaryLocationId (st : ShopifyState) : Except String Nat × List Call :=
  let idOk := match st.primaryLocation with
    | some id => if id ≠ 0 then some id else none
    | none => none
  match idOk with
  | some id => (.ok id, [Call.sGetShop])
  | none =>
    match st.fallbackLocation with
    | some f => (.ok f, [Call.sGetShop])
    | none => (.error "primary_location_id unavailable", [Call.sGetShop])

/-- Source `getLocationIdForItem`: try `getPrimaryLocationId`; on failure read
the first existing inventory level's location, else `DEFAULT_LOCATION_ID`,
else throw. -/
def getLocationIdForItem (st : ShopifyState) (inventoryItemId : Nat) :
    Except String Nat × List Call :=
  match getPrimaryLocationId st with
  | (.ok id, t) => (.ok id, t)
  | (.error _, t) =>
    let t := t ++ [Call.sGetLevels inventoryItemId]
    let loc := match (st.levelsFor inventoryItemId).head? with
      | some l => if l ≠ 0 then some l else none
      | none => none
    match loc with
    | some l => (.ok l, t)
    | none =>
      match st.fallbackLocation with
      | some f => (.ok f, t)
      | none => (.error "No location_id available", t)

/-- Source `setInventoryLevel`: resolve a location, then
`POST inventory_levels/set.json` with the absolute `available` quantity; the
remote sets the level of that (location, inventory item) pair. -/
def setInventoryLevel (st : ShopifyState) (inventoryItemId : Nat) (available : Int) :
    Except String ShopifyState × List Call :=
  match getLocationIdForItem st inventoryItemId with
  | (.error e, t) => (.error e, t)
  | (.ok locId, t) =>
    (.ok { st with
        inv := fun l i =>
          if l = locId ∧ i = inventoryItemId then available else st.inv l i },
      t ++ [Call.sInvSet locId inventoryItemId available])

/-! ## Zoho model (api/zoho.ts) -/

/-- A Zoho catalog item as consumed by the code.  `rate` is kept as the image
of JavaScript `String(item.rate)` (the code's only uses are `String(item.rate)`
in the sync and a pass-through into a sales-order line); the three stock
fields are JSON numbers or absent. -/
structure ZItem where
  item_id : Nat
  name : String
  sku : Option String
  rate : Option String
  available_stock : Option Int
  actual_available_stock : Option Int
  stock_on_hand : Option Int
deriving Repr, DecidableEq

/-- A page returned by `listZohoItemsPaged`.  An absent `page_context` and
`has_more_page: false` are collapsed (both are falsy in the loop's
`data.page_context && data.page_context.has_more_page`). -/
structure ZPage where
  items : List ZItem
  has_more_page : Bool
deriving Repr, DecidableEq

/-- A Zoho contact (only `contact_id` is consumed). -/
structure Contact where
  contact_id : Nat
deriving Repr, DecidableEq

/-- The backend remote, static along the verified flows: item search results
for a `search_text` query, paged listing, item fetch by id (`none` models a
thrown non-2xx response), contact search by email, and the contact the remote
would create for a given name/email. -/
structure ZohoEnv where
  search : String → List ZItem
  pages : Nat → ZPage
  itemById : JVal → Option ZItem
  contactsByEmail : String → List Contact
  createdContact : String → String → Contact

/-- Source `findZohoItemBySKU`: `items?search_text=sku`, then the first exact
sku match, else `null`. -/
def findZohoItemBySKU (zenv : ZohoEnv) (sku : String) : Option ZItem :=
  (zenv.search sku).find? (fun i => i.sku = some sku)

/-- JavaScript `String(v)` for the payload values the code stringifies
(`String(order.id)`).  Fractional number formatting is not needed: ids are
integers. -/
def jsString : JVal → String
  | .nullish => "undefined"
  | .num n => toString n
  | .str s => s
  | .jbool b => if b then "true" else "false"

/-- Source `getOrCreateZohoContactByEmail`: throw on falsy email, search by
email and take the first hit, else create a contact named
`name || email.split("@")[0]`. -/
def getOrCreateZohoContactByEmail (zenv : ZohoEnv) (email : String)
    (name : Option String) : Except String Contact × List Call :=
  if email = "" then (.error "Email required", [])
  else
    match zenv.contactsByEmail email with
    | c :: _ => (.ok c, [Call.zContactSearch email])
    | [] =>
      let contactName := match orT name (some (jsSplitFirst email '@')) with
        | some s => s
        | none => ""
      (.ok (zenv.createdContact contactName email),
        [Call.zContactSearch email, Call.zContactCreate contactName email])

/-- Input line collected by the order push (`lineItems` entry in
pushShopifyOrdersToZoho.ts): `rate` carries `li.price`, possibly nullish. -/
structure PushLine where
  sku : String
  quantity : Int
  rate : JVal
deriving Repr, DecidableEq

/-- Input of `createZohoSalesOrder` (`SalesOrderInput` in api/zoho.ts). -/
structure SalesOrderInput where
  customerEmail : String
  customerName : Option String
  referenceNumber : String
  lineItems : List PushLine
deriving Repr, DecidableEq

/-- The sales-order payload `POST salesorders` sends (`res.salesorder` is
returned by the remote; the code only logs it, so the request payload stands
for the result). -/
structure SalesOrder where
  customer_id : Nat
  reference_number : String
  line_items : List SalesLine
deriving Repr, DecidableEq

/-- The per-line body of `createZohoSalesOrder`'s loop: re-resolve the sku and
throw when it is gone, else build the Zoho line with
`rate: li.rate != null ? li.rate : item.rate`. -/
def buildSalesLines (zenv : ZohoEnv) : List PushLine → Except String (List SalesLine) × List Call
  | [] => (.ok [], [])
  | li :: rest =>
    let t0 := [Call.zSearchItems li.sku]
    match findZohoItemBySKU zenv li.sku with
    | none => (.error ("Zoho item not found for SKU " ++ li.sku), t0)
    | some item =>
      let line : SalesLine :=
        { item_id := item.item_id
          name := item.name
          rate := match li.rate with
            | .nullish =>
              match item.rate with
              | some r => .str r
              | none => .nullish
            | v => v
          quantity := li.quantity }
      match buildSalesLines zenv rest with
      | (.ok lines, t) => (.ok (line :: lines), t0 ++ t)
      | (.error e, t) => (.error e, t0 ++ t)

/-- Source `createZohoSalesOrder`: resolve/create the contact, rebuild each
line from a fresh sku lookup (throwing if a sku no longer resolves), then
`POST salesorders`. -/
def createZohoSalesOrder (zenv : ZohoEnv) (inp : SalesOrderInput) :
    Except String SalesOrder × List Call :=
  match getOrCreateZohoContactByEmail zenv inp.customerEmail inp.customerName with
  | (.error e, t) => (.error e, t)
  | (.ok contact, t) =>
    match buildSalesLines zenv inp.lineItems with
    | (.error e, t2) => (.error e, t ++ t2)
    | (.ok lines, t2) =>
      let so : SalesOrder :=
        { customer_id := contact.contact_id
          reference_number := inp.referenceNumber
          line_items := lines }
      (.ok so, t ++ t2 ++
        [Call.zCreateSalesOrder contact.contact_id inp.referenceNumber lines])

/-! ## Order push (api/actions/pushShopifyOrdersToZoho.ts) -/

/-- A storefront order line (`ShopifyOrderLineItemLite`). -/
structure OrderLine where
  sku : Option String
  quantity : JVal
  price : JVal
deriving Repr, DecidableEq

/-- The customer object of a storefront order. -/
structure OrderCustomer where
  email : Option String
  first_name : Option String
  last_name : Option String
deriving Repr, DecidableEq

/-- The billing address of a storefront order (only `name` is read). -/
structure OrderAddr where
  name : Option String
deriving Repr, DecidableEq

/-- A storefront order (`ShopifyOrderLite`). -/
structure Order where
  id : JVal
  email : Option String
  customer : Option OrderCustomer
  billing_address : Option OrderAddr
  line_items : List OrderLine
deriving Repr, DecidableEq

/-- The line-collection loop of `pushShopifyOrderToZoho`: skip lines with a
falsy sku, a non-number quantity, or an unresolvable sku; keep the rest. -/
def collectLines (zenv : ZohoEnv) : List OrderLine → List PushLine × List Call
  | [] => ([], [])
  | li :: rest =>
    if truthyOptStr li.sku then
      match li.quantity with
      | .num q =>
        let sku := li.sku.getD ""
        let t0 := [Call.zSearchItems sku]
        let p := collectLines zenv rest
        match findZohoItemBySKU zenv sku with
        | none => (p.1, t0 ++ p.2)
        | some _ => ({ sku := sku, quantity := q, rate := li.price } :: p.1, t0 ++ p.2)
      | _ => collectLines zenv rest
    else collectLines zenv rest

/-- The `[first_name, last_name].filter(Boolean).join(" ") || billing.name`
customer-name computation. -/
def customerNameOf (order : Order) : Option String :=
  let parts := [order.customer.bind (·.first_name), order.customer.bind (·.last_name)]
  let joined := String.intercalate " " ((parts.filterMap id).filter (· ≠ ""))
  if joined = "" then order.billing_address.bind (·.name) else some joined

/-- Source `pushShopifyOrderToZoho`: bail out (without error) when the order
has no email or no line resolves; otherwise create one sales order from the
collected lines. -/
def pushShopifyOrderToZoho (zenv : ZohoEnv) (order : Order) :
    Except String (Option SalesOrder) × List Call :=
  let email := orT order.email (order.customer.bind (·.email))
  match email with
  | none => (.ok none, [])
  | some e =>
    if e = "" then (.ok none, [])
    else
      let p := collectLines zenv order.line_items
      if p.1.isEmpty then (.ok none, p.2)
      else
        match createZohoSalesOrder zenv
            { customerEmail := e
              customerName := customerNameOf order
              referenceNumber := jsString order.id
              lineItems := p.1 } with
        | (.ok so, t2) => (.ok (some so), p.2 ++ t2)
        | (.error er, t2) => (.error er, p.2 ++ t2)

/-! ## Sync action (api/actions/syncZohoToShopify.ts) -/

/-- The JavaScript expression `typeof x === "number" && x` for an optional
numeric field: the number itself when present, `false` otherwise. -/
def typeofNumAnd (x : Option Int) : JVal :=
  match x with
  | some n => .num n
  | none => .jbool false

/-- The sync's stock expression, verbatim from the source:
`(typeof item.available_stock === "number" && item.available_stock)
  ?? (typeof item.actual_available_stock === "number" && item.actual_available_stock)
  ?? (typeof item.stock_on_hand === "number" && item.stock_on_hand)`. -/
def syncAvailable (it : ZItem) : JVal :=
  jsNullish (typeofNumAnd it.available_stock)
    (jsNullish (typeofNumAnd it.actual_available_stock)
      (typeofNumAnd it.stock_on_hand))

/-- Result of processing one item (or a list of items) of the sync loop:
final state, emitted calls, and the error that aborted the run, if any. -/
structure SyncOut where
  st : ShopifyState
  trace : List Call
  err : Option String

/-- The stock half of the sync's per-item body: set the level when the
(buggy) stock expression is a number, abort the run on a thrown
`setInventoryLevel`.  `prior` is the trace accumulated by the sku/price
half. -/
def syncStock (host : Host) (it : ZItem) (v : Variant) (base : ShopifyState)
    (prior : List Call) : SyncOut :=
  match syncAvailable it with
  | .num n =>
    match setInventoryLevel base v.inventory_item_id n with
    | (.ok st2, t2) => { st := st2, trace := prior ++ t2, err := none }
    | (.error e, t2) => { st := base, trace := prior ++ t2, err := some e }
  | _ => { st := base, trace := prior, err := none }

/-- The per-item body of the sync loop: skip on falsy sku or unresolved
variant; update the price only when `String(item.rate)` is truthy and differs
from the variant's price; then the stock half (`syncStock`). -/
def syncItem (host : Host) (it : ZItem) (st : ShopifyState) : SyncOut :=
  if ¬ truthyOptStr it.sku then { st := st, trace := [], err := none }
  else
    let sku := it.sku.getD ""
    let t0 := [Call.sVariantSearch sku]
    match findVariantBySKU host st sku with
    | none => { st := st, trace := t0, err := none }
    | some v =>
      let zohoPrice := match it.rate with | some r => r | none => ""
      let pr :=
        if zohoPrice ≠ "" ∧ v.price ≠ zohoPrice then
          updateVariantPrice st v.id zohoPrice
        else (st, [])
      syncStock host it v pr.1 (t0 ++ pr.2)

/-- The sync loop's `for (const item of items)` body, aborting on the first
error. -/
def syncItems (host : Host) : List ZItem → ShopifyState → SyncOut
  | [], st => { st := st, trace := [], err := none }
  | it :: rest, st =>
    let r := syncItem host it st
    match r.err with
    | some e => { st := r.st, trace := r.trace, err := some e }
    | none =>
      let r2 := syncItems host rest r.st
      { st := r2.st, trace := r.trace ++ r2.trace, err := r2.err }

/-- Result of a whole sync run: pages fetched in order, final state, trace,
and the aborting error, if any. -/
structure RunOut where
  pages : List Nat
  st : ShopifyState
  trace : List Call
  err : Option String

/-- Source `syncZohoToShopify`'s `while (true)` pagination loop, with an
explicit fuel (`none` = fuel exhausted before the loop exited).  Each
iteration fetches a page; an empty page breaks immediately, otherwise the
items are processed and the loop continues exactly when
`page_context.has_more_page` is truthy. -/
def syncLoop (host : Host) (zenv : ZohoEnv) : Nat → Nat → ShopifyState → Option RunOut
  | 0, _, _ => none
  | fuel + 1, page, st =>
    let data := zenv.pages page
    let t0 := [Call.zListItems page]
    if data.items.isEmpty then some { pages := [page], st := st, trace := t0, err := none }
    else
      let r := syncItems host data.items st
      match r.err with
      | some e => some { pages := [page], st := r.st, trace := t0 ++ r.trace, err := some e }
      | none =>
        if data.has_more_page then
          match syncLoop host zenv fuel (page + 1) r.st with
          | none => none
          | some o =>
            some { pages := page :: o.pages, st := o.st,
                   trace := t0 ++ r.trace ++ o.trace, err := o.err }
        else some { pages := [page], st := r.st, trace := t0 ++ r.trace, err := none }

/-- The loop's per-page stop condition: the page returned zero items (checked
first) or `page_context.has_more_page` is falsy (checked after the items are
processed). -/
def stopCond (p : ZPage) : Bool :=
  p.items.isEmpty || !p.has_more_page

/-- Helper projections used to state claims about an optional run result. -/
def runOk (o : Option RunOut) : Bool :=
  match o with
  | some x => x.err.isNone
  | none => false

/-- Pages fetched by an optional run result. -/
def runPages (o : Option RunOut) : List Nat :=
  match o with
  | some x => x.pages
  | none => []

/-- Trace of an optional run result. -/
def runTrace (o : Option RunOut) : List Call :=
  match o with
  | some x => x.trace
  | none => []

/-- Final state of an optional run result (defaulting to the initial state). -/
def runSt (o : Option RunOut) (st : ShopifyState) : ShopifyState :=
  match o with
  | some x => x.st
  | none => st

/-! ## Backend inventory webhook (api/routes/zoho/POST-webhook.ts) -/

/-- The nested `body.item` object: the fields the handler probes on it. -/
structure ZBodyItem where
  sku : JVal
  item_sku : JVal
  rate : JVal
  price : JVal
  available_stock : JVal
  stock_on_hand : JVal
  actual_available_stock : JVal
deriving Repr, DecidableEq

/-- One `line_items[]` entry of an inventory-adjustment payload. -/
structure AdjLine where
  item_id : JVal
  new_quantity : JVal
deriving Repr, DecidableEq

/-- The `body.inventory_adjustment` object; `line_items = none` models a
non-array value (the handler's `Array.isArray` check). -/
structure Adjustment where
  line_items : Option (List AdjLine)
  new_quantity : JVal
deriving Repr, DecidableEq

/-- The webhook body: top-level probed fields, the optional nested `item`,
and the optional `inventory_adjustment` (an object is truthy, so its presence
selects the adjustment branch). -/
structure ZBody where
  sku : JVal
  item_sku : JVal
  rate : JVal
  price : JVal
  available_stock : JVal
  stock_on_hand : JVal
  actual_available_stock : JVal
  quantity_available : JVal
  quantity : JVal
  item : Option ZBodyItem
  inventory_adjustment : Option Adjustment
deriving Repr, DecidableEq

/-- Optional chaining `body?.item?.f`: nullish when `item` is absent. -/
def itemField (body : ZBody) (f : ZBodyItem → JVal) : JVal :=
  match body.item with
  | some it => f it
  | none => .nullish

/-- Source `pickSKU`: `extractString(body?.sku) || extractString(body?.item_sku)
|| extractString(body?.item?.sku) || extractString(body?.item?.item_sku)`. -/
def pickSKU (body : ZBody) : Option String :=
  orT (extractString body.sku)
    (orT (extractString body.item_sku)
      (orT (extractString (itemField body (·.sku)))
        (extractString (itemField body (·.item_sku)))))

/-- JavaScript number-or-string result (`number | string | undefined` with the
`undefined` case carried by `Option`). -/
inductive NumOrStr where
  | num (n : Int)
  | str (s : String)
deriving Repr, DecidableEq

/-- Rendering of a `number | string` value passed to `String(price)`. -/
def NumOrStr.toStr : NumOrStr → String
  | .num n => toString n
  | .str s => s

/-- Source `pickPrice`: nullish-coalesce `rate`/`price` from the body and the
nested item, coerce to a finite number, else keep it when it is a string. -/
def pickPrice (host : Host) (body : ZBody) : Option NumOrStr :=
  let candidate :=
    jsNullish body.rate
      (jsNullish body.price
        (jsNullish (itemField body (·.rate)) (itemField body (·.price))))
  match coerceNumber host candidate with
  | some n => some (.num n)
  | none =>
    match extractString candidate with
    | some s => some (.str s)
    | none => none

/-- Source `pickAvailableStock`: first finite number among the absolute
candidates, else `quantity`, else `undefined`. -/
def pickAvailableStock (host : Host) (body : ZBody) : Option Int :=
  let absCandidates : List JVal :=
    [body.available_stock, body.stock_on_hand, body.actual_available_stock,
     body.quantity_available,
     itemField body (·.available_stock), itemField body (·.stock_on_hand),
     itemField body (·.actual_available_stock)]
  match absCandidates.findSome? (coerceNumber host) with
  | some n => some n
  | none => coerceNumber host body.quantity

/-- The headers the backend webhook handler reads. -/
structure ZHeaders where
  signature : Option String
  webhookSecret : Option String
  zohoWebhookSecret : Option String
  auth : Option String
deriving Repr, DecidableEq

/-- A backend webhook request: headers, the raw body string used for the HMAC
(the handler's `request.rawBody` branch), and the parsed body. -/
structure ZReq where
  headers : ZHeaders
  rawBody : String
  body : ZBody
deriving Repr, DecidableEq

/-- Strip a leading case-insensitive `Bearer` followed by whitespace
(`.replace(/^Bearer\s+/i, "")`). -/
def stripBearer (s : String) : String :=
  let pre := s.data.take 6
  let rest := s.data.drop 6
  if String.mk (pre.map Char.toLower) = "bearer" ∧ rest ≠ [] ∧
      (rest.headD ' ').isWhitespace then
    String.mk (rest.dropWhile Char.isWhitespace)
  else s

/-- The handler's HMAC validation of a present signature: compare the base64
decodings when their lengths agree (`crypto.timingSafeEqual`), else fall back
to a case-insensitive hex comparison. -/
def zohoSignatureValid (host : Host) (secret rawBody sig : String) : Bool :=
  let computedBase64 := host.hmacBase64 secret rawBody
  let sigStr := jsTrim sig
  let a := host.b64decode sigStr
  let b := host.b64decode computedBase64
  if a.length = b.length then a = b
  else jsToLower sigStr = jsToLower (host.hmacHex secret rawBody)

/-- The signature branch of the handler's authorization: false when the
signature header is absent or falsy. -/
def zohoSigBranch (host : Host) (secret : String) (req : ZReq) : Bool :=
  match req.headers.signature with
  | some sig => if sig ≠ "" then zohoSignatureValid host secret req.rawBody sig else false
  | none => false

/-- The shared-secret header probed by the fallback:
`x-webhook-secret || x-zoho-webhook-secret || authorization without Bearer`. -/
def zohoHeaderSecret (h : ZHeaders) : Option String :=
  orT h.webhookSecret (orT h.zohoWebhookSecret (h.auth.map stripBearer))

/-- The shared-secret fallback check:
`!!headerSecret && String(headerSecret) === String(SECRET)`. -/
def zohoSecretHeaderOk (h : ZHeaders) (secret : String) : Bool :=
  match zohoHeaderSecret h with
  | some hs => hs ≠ "" ∧ hs = secret
  | none => false

/-- The handler's full authorization decision given a truthy secret. -/
def zohoAuthorized (host : Host) (secret : String) (req : ZReq) : Bool :=
  zohoSigBranch host secret req || zohoSecretHeaderOk req.headers secret

/-- Result of a webhook handler invocation: HTTP status, the storefront state
after the updates, and the vendor calls issued. -/
structure HandlerOut where
  status : Nat
  st : ShopifyState
  trace : List Call

/-- The flat (non-adjustment) branch of the backend webhook, after
authorization: skip without sku or variant, else optionally update the price
and set the absolute stock, catching per-update errors. -/
def zohoFlatBranch (host : Host) (st : ShopifyState) (body : ZBody) : HandlerOut :=
  match pickSKU body with
  | none => { status := 200, st := st, trace := [] }
  | some sku =>
    if sku = "" then { status := 200, st := st, trace := [] }
    else
      let price := pickPrice host body
      let available := pickAvailableStock host body
      let t0 := [Call.sVariantSearch sku]
      match findVariantBySKU host st sku with
      | none => { status := 200, st := st, trace := t0 }
      | some v =>
        let pr :=
          match price with
          | some p => updateVariantPrice st v.id p.toStr
          | none => (st, [])
        let iv :=
          match available with
          | some n =>
            match setInventoryLevel pr.1 v.inventory_item_id n with
            | (.ok st', ts) => (st', ts)
            | (.error _, ts) => (pr.1, ts)
          | none => (pr.1, [])
        { status := 200, st := iv.1, trace := t0 ++ pr.2 ++ iv.2 }

/-- The adjustment branch's quantity resolution:
`coerceNumber(li?.new_quantity) ?? coerceNumber(adj?.new_quantity) ??
coerceNumber(item?.available_stock ?? item?.stock_on_hand ??
item?.actual_available_stock)`. -/
def adjNewQty (host : Host) (adj : Adjustment) (li : AdjLine) (item : ZItem) :
    Option Int :=
  match coerceNumber host li.new_quantity with
  | some n => some n
  | none =>
    match coerceNumber host adj.new_quantity with
    | some n => some n
    | none =>
      match item.available_stock with
      | some n => some n
      | none =>
        match item.stock_on_hand with
        | some n => some n
        | none => item.actual_available_stock

/-- One `line_items[]` iteration of the adjustment branch (the per-line `try`
block): resolve the Zoho item, its sku, the Shopify variant, then set the
level to `new_quantity ?? adj.new_quantity ?? item's stock`, catching
failures. -/
def zohoAdjLine (host : Host) (zenv : ZohoEnv) (adj : Adjustment)
    (li : AdjLine) (st : ShopifyState) : ShopifyState × List Call :=
  if li.item_id.truthy then
    let t0 := [Call.zGetItem li.item_id]
    match zenv.itemById li.item_id with
    | none => (st, t0)
    | some item =>
      if truthyOptStr item.sku then
        let sku := item.sku.getD ""
        let t1 := t0 ++ [Call.sVariantSearch sku]
        match findVariantBySKU host st sku with
        | none => (st, t1)
        | some v =>
          match adjNewQty host adj li item with
          | some n =>
            match setInventoryLevel st v.inventory_item_id n with
            | (.ok st', ts) => (st', t1 ++ ts)
            | (.error _, ts) => (st, t1 ++ ts)
          | none => (st, t1)
      else (st, t0)
  else (st, [])

/-- The adjustment branch's loop over `line_items[]`. -/
def zohoAdjLoop (host : Host) (zenv : ZohoEnv) (adj : Adjustment) :
    List AdjLine → ShopifyState → ShopifyState × List Call
  | [], st => (st, [])
  | li :: rest, st =>
    let p1 := zohoAdjLine host zenv adj li st
    let p2 := zohoAdjLoop host zenv adj rest p1.1
    (p2.1, p1.2 ++ p2.2)

/-- The body-processing part of the backend webhook handler (after the
authorization checks): dispatch on `body.inventory_adjustment`. -/
def zohoWebhookBody (host : Host) (zenv : ZohoEnv) (st : ShopifyState)
    (body : ZBody) : HandlerOut :=
  match body.inventory_adjustment with
  | none => zohoFlatBranch host st body
  | some adj =>
    let lines := match adj.line_items with
      | some ls => ls
      | none => []
    let p := zohoAdjLoop host zenv adj lines st
    { status := 200, st := p.1, trace := p.2 }

/-- Source handler of POST-webhook.ts: 401 when the secret is unconfigured or
neither the HMAC signature nor a shared-secret header authorizes the request;
otherwise process the body. -/
def zohoWebhook (host : Host) (secret : Option String) (zenv : ZohoEnv)
    (st : ShopifyState) (req : ZReq) : HandlerOut :=
  match secret with
  | none => { status := 401, st := st, trace := [] }
  | some s =>
    if s = "" then { status := 401, st := st, trace := [] }
    else if ¬ zohoAuthorized host s req then { status := 401, st := st, trace := [] }
    else zohoWebhookBody host zenv st req.body

/-- The handler's overall authentication decision, for stating the
status-code claims. -/
def zohoAuthOk (host : Host) (secret : Option String) (req : ZReq) : Bool :=
  match secret with
  | none => false
  | some s => s ≠ "" && zohoAuthorized host s req

/-! ## Storefront order-created webhook (api/routes/shopify/POST-order-created.ts) -/

/-- A storefront webhook request: the `x-shopify-hmac-sha256` header, the raw
body used for verification (the handler's `request.rawBody` branch; the
string-body and stringify fallbacks only change the verified bytes), and the
parsed order. -/
structure ShopReq where
  hmacHeader : Option String
  rawBody : String
  body : Order
deriving Repr, DecidableEq

/-- Source `verifyHmac`: false without header or secret; compare base64
decodings of the header and the computed digest, false on length mismatch. -/
def verifyHmac (host : Host) (secret : Option String) (hmacHeader : Option String)
    (rawBody : String) : Bool :=
  match hmacHeader, secret with
  | some h, some s =>
    if h = "" ∨ s = "" then false
    else
      let computed := host.hmacBase64 s rawBody
      let a := host.b64decode h
      let b := host.b64decode computed
      if a.length = b.length then a = b else false
  | _, _ => false

/-- The handler's HMAC decision including the development-mode bypass: in
development a missing header is accepted outright, and a failed verification
is overridden to valid. -/
def shopifyHmacValid (host : Host) (secret : Option String) (dev : Bool)
    (req : ShopReq) : Bool :=
  if dev ∧ ¬ truthyOptStr req.hmacHeader then true
  else if dev then
    let v := verifyHmac host secret req.hmacHeader req.rawBody
    if ¬ v then true else v
  else verifyHmac host secret req.hmacHeader req.rawBody

/-- Result of the order-created handler: status and the vendor calls issued
(this flow mutates neither storefront state nor the modelled Zoho data). -/
structure OrderOut where
  status : Nat
  trace : List Call
deriving Repr, DecidableEq

/-- The post-authentication part of the order-created handler: read the email
from the order, push the order to Zoho when it is truthy, 500 when the push
throws. -/
def processOrder (zenv : ZohoEnv) (order : Order) : OrderOut :=
  let email := orT order.email (order.customer.bind (·.email))
  if truthyOptStr email then
    match pushShopifyOrderToZoho zenv order with
    | (.ok _, t) => { status := 200, trace := t }
    | (.error _, t) => { status := 500, trace := t }
  else { status := 200, trace := [] }

/-- Source handler of POST-order-created.ts: 401 on HMAC failure (modulo the
development bypass), otherwise process the order. -/
def orderCreatedWebhook (host : Host) (secret : Option String) (dev : Bool)
    (zenv : ZohoEnv) (req : ShopReq) : OrderOut :=
  if ¬ shopifyHmacValid host secret dev req then { status := 401, trace := [] }
  else processOrder zenv req.body

/-! ## Configuration checks (requireEnv in api/shopify.ts and api/zoho.ts) -/

/-- The error taxonomy of the spec as observable in the code: a missing
environment value makes `requireEnv` throw `Error("<name> is not defined")`
(the taxonomy's `ConfigurationError`, carrying the missing name); a non-2xx
vendor response throws an error carrying status and body (`UpstreamError`). -/
inductive ApiError where
  | configurationError (name : String)
  | upstream (status : Nat) (body : String)
deriving Repr, DecidableEq

/-- Source `requireEnv` (identical in both clients): throw naming the value
when it is absent or empty (JS truthiness), else return it. -/
def requireEnv (value : Option String) (name : String) : Except ApiError String :=
  match value with
  | some s => if s = "" then .error (.configurationError name) else .ok s
  | none => .error (.configurationError name)

/-- Require every (value, name) pair in order, as the sequential `requireEnv`
calls of a client function do. -/
def requireAll : List (Option String × String) → Except ApiError (List String)
  | [] => .ok []
  | (v, n) :: rest =>
    match requireEnv v n with
    | .error e => .error e
    | .ok s =>
      match requireAll rest with
      | .error e => .error e
      | .ok ss => .ok (s :: ss)

/-- The Shopify client configuration read from the environment. -/
structure ShopifyCfg where
  domain : Option String
  token : Option String
deriving Repr, DecidableEq

/-- The Zoho client configuration read from the environment. -/
structure ZohoCfg where
  baseUrl : Option String
  accountsUrl : Option String
  clientId : Option String
  clientSecret : Option String
  refreshToken : Option String
  orgId : Option String
deriving Repr, DecidableEq

/-- The (value, name) pairs `shopifyFetch` requires, in evaluation order:
the access token (first statement), then the domain (inside `shopifyURL`). -/
def shopifyRequired (cfg : ShopifyCfg) : List (Option String × String) :=
  [(cfg.token, "SHOPIFY_ACCESS_TOKEN"), (cfg.domain, "SHOPIFY_STORE_DOMAIN")]

/-- The (value, name) pairs a `zohoFetch` call requires, in evaluation order:
`getZohoAccessToken`'s four values, then the base URL and organization id. -/
def zohoRequired (cfg : ZohoCfg) : List (Option String × String) :=
  [(cfg.accountsUrl, "ZOHO_ACCOUNTS_URL"), (cfg.clientId, "ZOHO_CLIENT_ID"),
   (cfg.clientSecret, "ZOHO_CLIENT_SECRET"), (cfg.refreshToken, "ZOHO_REFRESH_TOKEN"),
   (cfg.baseUrl, "ZOHO_BASE_URL"), (cfg.orgId, "ZOHO_ORG_ID")]

/-- The configuration-checking prefix of every Shopify client call. -/
def shopifyCallConfig (cfg : ShopifyCfg) : Except ApiError (List String) :=
  requireAll (shopifyRequired cfg)

/-- The configuration-checking prefix of every Zoho client call. -/
def zohoCallConfig (cfg : ZohoCfg) : Except ApiError (List String) :=
  requireAll (zohoRequired cfg)

/-- The names of the required values a pair list is missing (in order). -/
def missingNames (pairs : List (Option String × String)) : List String :=
  (pairs.filter fun p => ¬ truthyOptStr p.1).map (·.2)

/-! ## Helper definitions used by claim statements -/

/-- Does a call update the price of the given variant id? -/
def isPriceUpdateTo (variantId : Nat) : Call → Bool
  | .sPriceUpdate i _ => i = variantId
  | _ => false

/-- Is a call an inventory-level set? -/
def isInvSet : Call → Bool
  | .sInvSet _ _ _ => true
  | _ => false

/-- The sales-order creation requests of a trace. -/
def soCreates (t : List Call) : List Call :=
  t.filter fun c =>
    match c with
    | .zCreateSalesOrder _ _ _ => true
    | _ => false

/-- The price-insensitive identity of the variant list: ids, skus, inventory
item ids, in order. -/
def variantKeys (st : ShopifyState) : List (Nat × Option String × Nat) :=
  st.variants.map fun v => (v.id, v.sku, v.inventory_item_id)

/-- The price of the variant with a given id, if present. -/
def priceAt (st : ShopifyState) (variantId : Nat) : Option String :=
  (st.variants.find? fun v => v.id = variantId).map (·.price)

/-- The inventory writes `(location, inventory item, quantity)` of a trace. -/
def invWrites (t : List Call) : List (Nat × Nat × Int) :=
  t.filterMap fun c =>
    match c with
    | .sInvSet l i q => some (l, i, q)
    | _ => none

/-- Replay a list of absolute inventory writes over a level table. -/
def applyWrites (ws : List (Nat × Nat × Int)) (f : Nat → Nat → Int) : Nat → Nat → Int :=
  ws.foldl (fun g w => fun l i => if l = w.1 ∧ i = w.2.1 then w.2.2 else g l i) f

/-- The last write a list performs on a given (location, item) cell. -/
def lastWrite : List (Nat × Nat × Int) → Nat → Nat → Option Int
  | [], _, _ => none
  | w :: ws, l, i =>
    match lastWrite ws l i with
    | some q => some q
    | none => if l = w.1 ∧ i = w.2.1 then some w.2.2 else none

/-- Does the order-push line-collection loop keep this order line?  (Truthy
sku, number quantity, sku resolvable in Zoho.) -/
def lineResolvable (zenv : ZohoEnv) (li : OrderLine) : Bool :=
  truthyOptStr li.sku &&
    (match li.quantity with | .num _ => true | _ => false) &&
    (findZohoItemBySKU zenv (li.sku.getD "")).isSome

/-- The push line an order line resolves to, if any: truthy sku, number
quantity, sku resolvable in Zoho. -/
def resolvedOfLine (zenv : ZohoEnv) (li : OrderLine) : Option PushLine :=
  if truthyOptStr li.sku then
    match li.quantity with
    | .num q =>
      if (findZohoItemBySKU zenv (li.sku.getD "")).isSome then
        some { sku := li.sku.getD "", quantity := q, rate := li.price }
      else none
    | _ => none
  else none

/-- The lines the order push resolves, written as a filterMap over the order
lines (the loop in `pushShopifyOrderToZoho` is proved to produce exactly
these). -/
def resolvedLines (zenv : ZohoEnv) (order : Order) : List PushLine :=
  order.line_items.filterMap (resolvedOfLine zenv)

/-- The sales-order line a resolvable push line turns into (the `none` arm is
unreachable for lines produced by `resolvedLines`). -/
def expectedSalesLine (zenv : ZohoEnv) (pl : PushLine) : SalesLine :=
  match findZohoItemBySKU zenv pl.sku with
  | some item =>
    { item_id := item.item_id
      name := item.name
      rate := match pl.rate with
        | .nullish =>
          match item.rate with
          | some r => .str r
          | none => .nullish
        | v => v
      quantity := pl.quantity }
  | none => { item_id := 0, name := "", rate := .nullish, quantity := 0 }

/-- The contact `getOrCreateZohoContactByEmail` resolves for a truthy email. -/
def resolvedContact (zenv : ZohoEnv) (email : String) (name : Option String) : Contact :=
  match zenv.contactsByEmail email with
  | c :: _ => c
  | [] =>
    zenv.createdContact
      (match orT name (some (jsSplitFirst email '@')) with
        | some s => s
        | none => "") email

/-- Price-insensitive correspondence of two variants: same id, sku and
inventory item id. -/
def corrVar (a b : Variant) : Prop :=
  a.id = b.id ∧ a.sku = b.sku ∧ a.inventory_item_id = b.inventory_item_id

/-- Correspondence of two storefront states: variants agree up to prices and
the static location data agrees (inventory levels are unconstrained). -/
def corrSt (s1 s2 : ShopifyState) : Prop :=
  List.Forall₂ corrVar s1.variants s2.variants ∧
  s1.primaryLocation = s2.primaryLocation ∧
  s1.fallbackLocation = s2.fallbackLocation ∧
  s1.levelsFor = s2.levelsFor

/-- Correspondence of two optional variants. -/
def optCorr : Option Variant → Option Variant → Prop
  | some a, some b => corrVar a b
  | none, none => True
  | _, _ => False

/-! ## Concrete fixtures used by the witnesses -/

/-- A concrete host instantiating the external primitives. -/
def hostW : Host :=
  { parseNum := fun _ => none
    hmacBase64 := fun _ _ => "QUJD"
    hmacHex := fun _ _ => "aabbcc"
    b64decode := fun s => s.data.map Char.toNat
    variantMatch := fun q s => s == some q }

/-- An empty webhook body. -/
def emptyZBody : ZBody :=
  { sku := .nullish, item_sku := .nullish, rate := .nullish, price := .nullish,
    available_stock := .nullish, stock_on_hand := .nullish,
    actual_available_stock := .nullish, quantity_available := .nullish,
    quantity := .nullish, item := none, inventory_adjustment := none }

/-- A backend webhook request with a signature that fails both digest forms
and no shared-secret header. -/
def badSigReq : ZReq :=
  { headers := { signature := some "X", webhookSecret := none,
                 zohoWebhookSecret := none, auth := none }
    rawBody := "{}"
    body := emptyZBody }

/-- A static Zoho environment with no data. -/
def zenvEmpty : ZohoEnv :=
  { search := fun _ => []
    pages := fun _ => { items := [], has_more_page := false }
    itemById := fun _ => none
    contactsByEmail := fun _ => []
    createdContact := fun _ _ => { contact_id := 0 } }

/-- An empty storefront state. -/
def stEmpty : ShopifyState :=
  { variants := [], inv := fun _ _ => 0, primaryLocation := none,
    fallbackLocation := none, levelsFor := fun _ => [] }

/-- A storefront state with one variant for sku "A" (price "3"). -/
def stOneVariant : ShopifyState :=
  { variants := [{ id := 10, sku := some "A", price := "3", inventory_item_id := 100 }]
    inv := fun _ _ => 0
    primaryLocation := some 7
    fallbackLocation := none
    levelsFor := fun _ => [] }

/-- A Zoho item with stock only in `stock_on_hand` (exercising the sync's
dead fallback). -/
def zItemStockOnly : ZItem :=
  { item_id := 1, name := "Widget", sku := some "A", rate := none,
    available_stock := none, actual_available_stock := none,
    stock_on_hand := some 5 }

/-- A Zoho item with sku "A" and a rate, as a catalog/search result. -/
def zItemA : ZItem :=
  { item_id := 5, name := "Alpha", sku := some "A", rate := some "9",
    available_stock := none, actual_available_stock := none,
    stock_on_hand := none }

/-- A Zoho environment that resolves sku "A" only and has one contact. -/
def zenvA : ZohoEnv :=
  { search := fun t => if t == "A" then [zItemA] else []
    pages := fun p => if p == 1 then { items := [zItemA], has_more_page := false }
      else { items := [], has_more_page := false }
    itemById := fun _ => none
    contactsByEmail := fun _ => [{ contact_id := 77 }]
    createdContact := fun _ _ => { contact_id := 88 } }

/-- A paged Zoho environment whose second page is empty but still claims
`has_more_page`, so the loop must stop there by the zero-items check. -/
def zenvPages : ZohoEnv :=
  { search := fun t => if t == "A" then [zItemA] else []
    pages := fun p => if p == 1 then { items := [zItemA], has_more_page := true }
      else { items := [], has_more_page := true }
    itemById := fun _ => none
    contactsByEmail := fun _ => [{ contact_id := 77 }]
    createdContact := fun _ _ => { contact_id := 88 } }

/-- A storefront order with a resolvable "A" line and an unresolvable "B"
line. -/
def orderAB : Order :=
  { id := .num 42
    email := some "u@x.com"
    customer := none
    billing_address := none
    line_items :=
      [{ sku := some "A", quantity := .num 2, price := .nullish },
       { sku := some "B", quantity := .num 1, price := .nullish }] }

/-! ## Lemmas -/

theorem requireEnv_of_truthy (v : Option String) (m : String)
    (h : truthyOptStr v = true) : ∃ s, requireEnv v m = .ok s := by
  cases v with
  | none => simp [truthyOptStr] at h
  | some s =>
    refine ⟨s, ?_⟩
    simp only [truthyOptStr, bne_iff_ne, ne_eq, decide_eq_true_eq] at h
    simp [requireEnv, h]

theorem requireEnv_of_falsy (v : Option String) (m : String)
    (h : truthyOptStr v = false) :
    requireEnv v m = .error (.configurationError m) := by
  cases v with
  | none => simp [requireEnv]
  | some s =>
    have hs : s = "" := by simpa [truthyOptStr] using h
    simp [requireEnv, hs]

theorem missingNames_cons (v : Option String) (m : String)
    (rest : List (Option String × String)) :
    missingNames ((v, m) :: rest) =
      if truthyOptStr v then missingNames rest else m :: missingNames rest := by
  by_cases h : truthyOptStr v = true <;> simp [missingNames, List.filter, h]

theorem requireAll_spec (pairs : List (Option String × String)) :
    (∀ n rest, missingNames pairs = n :: rest →
      requireAll pairs = .error (.configurationError n)) ∧
    (missingNames pairs = [] → ∃ vals, requireAll pairs = .ok vals) ∧
    (∀ e, requireAll pairs = .error e →
      ∃ n, e = .configurationError n ∧ n ∈ missingNames pairs) := by
  induction pairs with
  | nil =>
    refine ⟨?_, ?_, ?_⟩
    · intro n rest h; simp [missingNames] at h
    · intro _; exact ⟨[], rfl⟩
    · intro e h; simp [requireAll] at h
  | cons p rest ih =>
    obtain ⟨v, m⟩ := p
    obtain ⟨ih1, ih2, ih3⟩ := ih
    by_cases hv : truthyOptStr v = true
    · obtain ⟨s, hs⟩ := requireEnv_of_truthy v m hv
      refine ⟨?_, ?_, ?_⟩
      · intro n rs h
        rw [missingNames_cons, if_pos hv] at h
        simp [requireAll, hs, ih1 n rs h]
      · intro h
        rw [missingNames_cons, if_pos hv] at h
        obtain ⟨vals, hvals⟩ := ih2 h
        exact ⟨s :: vals, by simp [requireAll, hs, hvals]⟩
      · intro e h
        rw [missingNames_cons, if_pos hv]
        simp only [requireAll, hs] at h
        rcases hmr : requireAll rest with e2 | vals
        · rw [hmr] at h
          cases h
          exact ih3 _ hmr
        · rw [hmr] at h
          simp at h
    · have hv' : truthyOptStr v = false := by
        cases hb : truthyOptStr v
        · rfl
        · exact absurd hb hv
      have he := requireEnv_of_falsy v m hv'
      refine ⟨?_, ?_, ?_⟩
      · intro n rs h
        rw [missingNames_cons, if_neg (by simp [hv'])] at h
        cases h
        simp [requireAll, he]
      · intro h
        rw [missingNames_cons, if_neg (by simp [hv'])] at h
        cases h
      · intro e h
        simp only [requireAll, he] at h
        cases h
        refine ⟨m, rfl, ?_⟩
        rw [missingNames_cons, if_neg (by simp [hv'])]
        exact List.mem_cons_self _ _

theorem collectLines_resolvable (zenv : ZohoEnv) :
    ∀ ls : List OrderLine, ∀ pl ∈ (collectLines zenv ls).1,
      (findZohoItemBySKU zenv pl.sku).isSome = true := by
  intro ls
  induction ls with
  | nil => intro pl h; simp [collectLines] at h
  | cons li rest ih =>
    intro pl hpl
    by_cases hs : truthyOptStr li.sku = true
    · rcases hq : li.quantity with _ | q | s | b <;>
        simp only [collectLines, hs, hq, if_true] at hpl
      · exact ih pl hpl
      · rcases hf : findZohoItemBySKU zenv (li.sku.getD "") with _ | item <;>
          rw [hf] at hpl
        · exact ih pl hpl
        · simp only [List.mem_cons] at hpl
          rcases hpl with h | h
          · subst h; simp [hf]
          · exact ih pl h
      · exact ih pl hpl
      · exact ih pl hpl
    · have hs' : truthyOptStr li.sku = false := by
        cases hb : truthyOptStr li.sku
        · rfl
        · exact absurd hb hs
      simp only [collectLines, hs', Bool.false_eq_true, if_false] at hpl
      exact ih pl hpl

theorem buildSalesLines_ok (zenv : ZohoEnv) :
    ∀ pls : List PushLine,
      (∀ pl ∈ pls, (findZohoItemBySKU zenv pl.sku).isSome = true) →
      ∃ lines t, buildSalesLines zenv pls = (.ok lines, t) := by
  intro pls
  induction pls with
  | nil => intro _; exact ⟨[], [], rfl⟩
  | cons pl rest ih =>
    intro h
    have h1 := h pl (List.mem_cons_self _ _)
    rcases hf : findZohoItemBySKU zenv pl.sku with _ | item
    · rw [hf] at h1; cases h1
    · obtain ⟨lines, t, hrest⟩ := ih fun q hq => h q (List.mem_cons_of_mem _ hq)
      simp only [buildSalesLines, hf, hrest]
      exact ⟨_, _, rfl⟩

theorem getOrCreateContact_ok (zenv : ZohoEnv) (email : String)
    (name : Option String) (he : email ≠ "") :
    ∃ t, getOrCreateZohoContactByEmail zenv email name =
      (.ok (resolvedContact zenv email name), t) := by
  unfold getOrCreateZohoContactByEmail resolvedContact
  rcases hc : zenv.contactsByEmail email with _ | ⟨c, cs⟩ <;> simp [he, hc]

theorem createZohoSalesOrder_ok (zenv : ZohoEnv) (inp : SalesOrderInput)
    (he : inp.customerEmail ≠ "")
    (hl : ∀ pl ∈ inp.lineItems, (findZohoItemBySKU zenv pl.sku).isSome = true) :
    ∃ so t, createZohoSalesOrder zenv inp = (.ok so, t) := by
  obtain ⟨tc, hcon⟩ := getOrCreateContact_ok zenv inp.customerEmail inp.customerName he
  obtain ⟨lines, tb, hb⟩ := buildSalesLines_ok zenv inp.lineItems hl
  simp only [createZohoSalesOrder, hcon, hb]
  exact ⟨_, _, rfl⟩

theorem pushShopifyOrderToZoho_ok (zenv : ZohoEnv) (order : Order) :
    ∃ v t, pushShopifyOrderToZoho zenv order = (.ok v, t) := by
  unfold pushShopifyOrderToZoho
  rcases he : orT order.email (order.customer.bind (·.email)) with _ | e
  · exact ⟨none, [], rfl⟩
  · by_cases he' : e = ""
    · exact ⟨none, [], by simp [he']⟩
    · rcases hcl : collectLines zenv order.line_items with ⟨lineItems, t1⟩
      by_cases hemp : lineItems.isEmpty
      · exact ⟨none, t1, by simp [he', hcl, hemp]⟩
      · have hres : ∀ pl ∈ lineItems,
            (findZohoItemBySKU zenv pl.sku).isSome = true := by
          intro pl hpl
          have := collectLines_resolvable zenv order.line_items pl
          rw [hcl] at this
          exact this hpl
        obtain ⟨so, t2, hso⟩ := createZohoSalesOrder_ok zenv
          { customerEmail := e, customerName := customerNameOf order,
            referenceNumber := jsString order.id, lineItems := lineItems }
          he' hres
        refine ⟨some so, t1 ++ t2, ?_⟩
        simp [he', hcl, hemp, hso]

theorem processOrder_status_200 (zenv : ZohoEnv) (o : Order) :
    (processOrder zenv o).status = 200 := by
  unfold processOrder
  obtain ⟨v, t, hp⟩ := pushShopifyOrderToZoho_ok zenv o
  by_cases he : truthyOptStr (orT o.email (o.customer.bind (·.email))) = true
  · simp [he, hp]
  · simp only [Bool.not_eq_true] at he
    simp [he]

theorem shopifyHmacValid_dev (host : Host) (secret : Option String)
    (req : ShopReq) : shopifyHmacValid host secret true req = true := by
  unfold shopifyHmacValid
  by_cases h : truthyOptStr req.hmacHeader = true
  · simp only [h]
    by_cases hv : verifyHmac host secret req.hmacHeader req.rawBody = true <;>
      simp [hv]
  · simp only [Bool.not_eq_true] at h
    simp [h]

theorem truthyOptStr_some (o : Option String) (h : truthyOptStr o = true) :
    ∃ s, o = some s ∧ s ≠ "" := by
  cases o with
  | none => simp [truthyOptStr] at h
  | some s => exact ⟨s, rfl, by simpa [truthyOptStr] using h⟩

theorem soCreates_append (a b : List Call) :
    soCreates (a ++ b) = soCreates a ++ soCreates b :=
  List.filter_append _ _

theorem collectLines_fst (zenv : ZohoEnv) : ∀ ls : List OrderLine,
    (collectLines zenv ls).1 = ls.filterMap (resolvedOfLine zenv) := by
  intro ls
  induction ls with
  | nil => rfl
  | cons li rest ih =>
    by_cases hs : truthyOptStr li.sku = true
    · rcases hq : li.quantity with _ | q | s | b <;>
        simp only [collectLines, resolvedOfLine, hs, hq, if_true,
          List.filterMap_cons]
      · exact ih
      · rcases hf : findZohoItemBySKU zenv (li.sku.getD "") with _ | item <;>
          simp [hf, ih]
      · exact ih
      · exact ih
    · have hs' : truthyOptStr li.sku = false := by
        cases hb : truthyOptStr li.sku
        · rfl
        · exact absurd hb hs
      simp [collectLines, resolvedOfLine, hs', List.filterMap_cons, ih]

theorem collectLines_soCreates (zenv : ZohoEnv) : ∀ ls : List OrderLine,
    soCreates (collectLines zenv ls).2 = [] := by
  intro ls
  induction ls with
  | nil => rfl
  | cons li rest ih =>
    by_cases hs : truthyOptStr li.sku = true
    · rcases hq : li.quantity with _ | q | s | b <;>
        simp only [collectLines, hs, hq, if_true]
      · exact ih
      · rcases hf : findZohoItemBySKU zenv (li.sku.getD "") with _ | item <;>
          simp [hf, soCreates, ih, soCreates_append] <;>
          simpa [soCreates] using ih
      · exact ih
      · exact ih
    · have hs' : truthyOptStr li.sku = false := by
        cases hb : truthyOptStr li.sku
        · rfl
        · exact absurd hb hs
      simp [collectLines, hs', ih]

theorem getOrCreate_soCreates (zenv : ZohoEnv) (email : String)
    (name : Option String) :
    soCreates (getOrCreateZohoContactByEmail zenv email name).2 = [] := by
  unfold getOrCreateZohoContactByEmail
  by_cases he : email = ""
  · simp [he, soCreates]
  · rcases hc : zenv.contactsByEmail email with _ | ⟨c, cs⟩ <;>
      simp [he, hc, soCreates]

theorem buildSalesLines_soCreates (zenv : ZohoEnv) : ∀ pls : List PushLine,
    soCreates (buildSalesLines zenv pls).2 = [] := by
  intro pls
  induction pls with
  | nil => rfl
  | cons pl rest ih =>
    rcases hf : findZohoItemBySKU zenv pl.sku with _ | item
    · simp [buildSalesLines, hf, soCreates]
    · rcases hb : buildSalesLines zenv rest with ⟨res, t⟩
      have ht : soCreates t = [] := by rw [hb] at ih; exact ih
      cases res <;> simp [buildSalesLines, hf, hb, soCreates, soCreates_append] <;>
        simpa [soCreates] using ht

theorem buildSalesLines_ok_eq (zenv : ZohoEnv) : ∀ pls : List PushLine,
    (∀ pl ∈ pls, (findZohoItemBySKU zenv pl.sku).isSome = true) →
    (buildSalesLines zenv pls).1 = .ok (pls.map (expectedSalesLine zenv)) := by
  intro pls
  induction pls with
  | nil => intro _; rfl
  | cons pl rest ih =>
    intro h
    have h1 := h pl (List.mem_cons_self _ _)
    rcases hf : findZohoItemBySKU zenv pl.sku with _ | item
    · rw [hf] at h1; cases h1
    · rcases hb : buildSalesLines zenv rest with ⟨res, t⟩
      have ht : res = .ok (rest.map (expectedSalesLine zenv)) := by
        have := ih fun q hq => h q (List.mem_cons_of_mem _ hq)
        rw [hb] at this
        exact this
      subst ht
      simp [buildSalesLines, hf, hb, expectedSalesLine, List.map_cons]

theorem zohoFlatBranch_status (host : Host) (st : ShopifyState) (body : ZBody) :
    (zohoFlatBranch host st body).status = 200 := by
  unfold zohoFlatBranch
  rcases hs : pickSKU body with _ | sku
  · rfl
  · dsimp only
    split
    · rfl
    · rcases hv : findVariantBySKU host st sku with _ | v <;> simp [hv]

theorem zohoWebhookBody_status (host : Host) (zenv : ZohoEnv) (st : ShopifyState)
    (body : ZBody) : (zohoWebhookBody host zenv st body).status = 200 := by
  unfold zohoWebhookBody
  rcases h : body.inventory_adjustment with _ | adj
  · simp only [h]
    exact zohoFlatBranch_status host st body
  · simp [h]

theorem corrVar_refl (a : Variant) : corrVar a a := ⟨rfl, rfl, rfl⟩

theorem corrVar_trans {a b c : Variant} (h1 : corrVar a b) (h2 : corrVar b c) :
    corrVar a c :=
  ⟨h1.1.trans h2.1, h1.2.1.trans h2.2.1, h1.2.2.trans h2.2.2⟩

theorem forall2_corr_refl (l : List Variant) : List.Forall₂ corrVar l l := by
  induction l with
  | nil => constructor
  | cons a l ih => exact List.Forall₂.cons (corrVar_refl a) ih

theorem forall2_corr_trans : ∀ {l1 l2 l3 : List Variant},
    List.Forall₂ corrVar l1 l2 → List.Forall₂ corrVar l2 l3 →
    List.Forall₂ corrVar l1 l3 := by
  intro l1 l2 l3 h12
  induction h12 generalizing l3 with
  | nil => intro h; exact h
  | cons hab htl ih =>
    intro h23
    cases h23 with
    | cons hbc h' => exact List.Forall₂.cons (corrVar_trans hab hbc) (ih h')

theorem corrSt_refl (s : ShopifyState) : corrSt s s :=
  ⟨forall2_corr_refl s.variants, rfl, rfl, rfl⟩

theorem corrSt_trans {s1 s2 s3 : ShopifyState} (h1 : corrSt s1 s2)
    (h2 : corrSt s2 s3) : corrSt s1 s3 :=
  ⟨forall2_corr_trans h1.1 h2.1, h1.2.1.trans h2.2.1,
    h1.2.2.1.trans h2.2.2.1, h1.2.2.2.trans h2.2.2.2⟩

theorem forall2_filter_sku {l1 l2 : List Variant}
    (h : List.Forall₂ corrVar l1 l2) (p : Option String → Bool) :
    List.Forall₂ corrVar (l1.filter fun v => p v.sku)
      (l2.filter fun v => p v.sku) := by
  induction h with
  | nil => constructor
  | @cons a b l1' l2' hab htl ih =>
    by_cases hp : p b.sku = true <;>
      simp only [List.filter_cons, hab.2.1, hp, Bool.false_eq_true, if_true,
        if_false]
    · exact List.Forall₂.cons hab ih
    · exact ih

theorem forall2_find_sku {l1 l2 : List Variant}
    (h : List.Forall₂ corrVar l1 l2) (p : Option String → Bool) :
    optCorr (l1.find? fun v => p v.sku) (l2.find? fun v => p v.sku) := by
  induction h with
  | nil => trivial
  | @cons a b l1' l2' hab htl ih =>
    simp only [List.find?]
    rw [hab.2.1]
    cases hp : p b.sku <;> simp only [hp]
    · exact ih
    · exact hab

theorem forall2_head {l1 l2 : List Variant}
    (h : List.Forall₂ corrVar l1 l2) : optCorr l1.head? l2.head? := by
  cases h with
  | nil => trivial
  | cons hab htl => exact hab

theorem findVariantBySKU_corr (host : Host) {s1 s2 : ShopifyState}
    (h : corrSt s1 s2) (sku : String) :
    optCorr (findVariantBySKU host s1 sku) (findVariantBySKU host s2 sku) := by
  unfold findVariantBySKU
  have hf := forall2_filter_sku h.1 (fun os => host.variantMatch sku os)
  have hfind := forall2_find_sku hf (fun os => decide (os = some sku))
  rcases hfa : (s1.variants.filter fun v => host.variantMatch sku v.sku).find?
      (fun v => decide (v.sku = some sku)) with _ | a <;>
    rcases hfb : (s2.variants.filter fun v => host.variantMatch sku v.sku).find?
      (fun v => decide (v.sku = some sku)) with _ | b <;>
    rw [hfa, hfb] at hfind <;>
    simp only [hfa, hfb]
  · exact forall2_head hf
  · exact hfind.elim
  · exact hfind.elim
  · exact hfind

theorem forall2_corr_map_upd_self (vid : Nat) (p : String) :
    ∀ l : List Variant, List.Forall₂ corrVar l
      (l.map fun v => if v.id = vid then { v with price := p } else v) := by
  intro l
  induction l with
  | nil => constructor
  | cons a l ih =>
    refine List.Forall₂.cons ?_ ih
    by_cases ha : a.id = vid <;> simp [corrVar, ha]

theorem forall2_corr_map_upd (vid : Nat) (p : String) :
    ∀ {l1 l2 : List Variant}, List.Forall₂ corrVar l1 l2 →
      List.Forall₂ corrVar
        (l1.map fun v => if v.id = vid then { v with price := p } else v)
        (l2.map fun v => if v.id = vid then { v with price := p } else v) := by
  intro l1 l2 h
  induction h with
  | nil => constructor
  | @cons a b l1' l2' hab htl ih =>
    refine List.Forall₂.cons ?_ ih
    by_cases ha : a.id = vid
    · have hb : b.id = vid := hab.1.symm.trans ha
      simp [corrVar, ha, hb, hab.1, hab.2.1, hab.2.2]
    · have hb : ¬ b.id = vid := fun hb => ha (hab.1.trans hb)
      simp [corrVar, ha, hb, hab.1, hab.2.1, hab.2.2]

theorem updateVariantPrice_self_corr (st : ShopifyState) (vid : Nat) (p : String) :
    corrSt st (updateVariantPrice st vid p).1 :=
  ⟨forall2_corr_map_upd_self vid p st.variants, rfl, rfl, rfl⟩

theorem updateVariantPrice_congr {s1 s2 : ShopifyState} (h : corrSt s1 s2)
    (vid : Nat) (p : String) :
    corrSt (updateVariantPrice s1 vid p).1 (updateVariantPrice s2 vid p).1 :=
  ⟨forall2_corr_map_upd vid p h.1, h.2.1, h.2.2.1, h.2.2.2⟩

theorem getPrimaryLocationId_congr {s1 s2 : ShopifyState} (h : corrSt s1 s2) :
    getPrimaryLocationId s1 = getPrimaryLocationId s2 := by
  unfold getPrimaryLocationId
  rw [h.2.1, h.2.2.1]

theorem getLocationIdForItem_congr {s1 s2 : ShopifyState} (h : corrSt s1 s2)
    (i : Nat) : getLocationIdForItem s1 i = getLocationIdForItem s2 i := by
  unfold getLocationIdForItem
  rw [getPrimaryLocationId_congr h, h.2.2.1, h.2.2.2]

theorem getPrimaryLocationId_trace (st : ShopifyState) :
    (getPrimaryLocationId st).2 = [Call.sGetShop] := by
  unfold getPrimaryLocationId
  rcases hp : st.primaryLocation with _ | id
  · rcases hf : st.fallbackLocation with _ | f <;> rfl
  · dsimp only
    by_cases hid : id ≠ 0
    · rw [if_pos hid]
    · rw [if_neg hid]
      rcases hf : st.fallbackLocation with _ | f <;> rfl

theorem getLocationIdForItem_trace (st : ShopifyState) (i : Nat) :
    (getLocationIdForItem st i).2 = [Call.sGetShop] ∨
    (getLocationIdForItem st i).2 = [Call.sGetShop, Call.sGetLevels i] := by
  unfold getLocationIdForItem
  rcases hgp : getPrimaryLocationId st with ⟨res, t⟩
  have ht : t = [Call.sGetShop] := by
    have := getPrimaryLocationId_trace st
    rw [hgp] at this
    exact this
  subst ht
  cases res with
  | ok id => left; rfl
  | error e =>
    dsimp only
    rcases hh : (st.levelsFor i).head? with _ | l
    · rcases hf : st.fallbackLocation with _ | f <;> right <;> rfl
    · dsimp only
      by_cases hl : l ≠ 0
      · rw [if_pos hl]
        right
        rfl
      · rw [if_neg hl]
        rcases hf : st.fallbackLocation with _ | f <;> right <;> rfl

theorem getLocationIdForItem_clean (st : ShopifyState) (i : Nat) :
    invWrites (getLocationIdForItem st i).2 = [] ∧
    (∀ vid p, Call.sPriceUpdate vid p ∉ (getLocationIdForItem st i).2) := by
  rcases getLocationIdForItem_trace st i with h | h <;> rw [h] <;>
    exact ⟨rfl, by intro vid p hmem; simp [List.mem_cons] at hmem⟩

theorem setInventoryLevel_congr {s1 s2 : ShopifyState} (h : corrSt s1 s2)
    (i : Nat) (q : Int) :
    (setInventoryLevel s1 i q).2 = (setInventoryLevel s2 i q).2 ∧
    ((∃ st1' st2', (setInventoryLevel s1 i q).1 = .ok st1' ∧
        (setInventoryLevel s2 i q).1 = .ok st2' ∧ corrSt st1' st2') ∨
      (∃ e, (setInventoryLevel s1 i q).1 = .error e ∧
        (setInventoryLevel s2 i q).1 = .error e)) := by
  unfold setInventoryLevel
  rw [← getLocationIdForItem_congr h]
  rcases hloc : getLocationIdForItem s1 i with ⟨res, t⟩
  cases res with
  | error e => exact ⟨rfl, Or.inr ⟨e, rfl, rfl⟩⟩
  | ok locId =>
    refine ⟨rfl, Or.inl ⟨_, _, rfl, rfl, ?_⟩⟩
    exact ⟨h.1, h.2.1, h.2.2.1, h.2.2.2⟩

theorem setInventoryLevel_pres (st : ShopifyState) (i : Nat) (q : Int) :
    ∀ st', (setInventoryLevel st i q).1 = .ok st' → corrSt st st' := by
  intro st' hok
  unfold setInventoryLevel at hok
  rcases hloc : getLocationIdForItem st i with ⟨res, t⟩
  rw [hloc] at hok
  cases res with
  | error e => cases hok
  | ok locId =>
    cases hok
    exact ⟨forall2_corr_refl st.variants, rfl, rfl, rfl⟩

theorem setInventoryLevel_writes (st : ShopifyState) (i : Nat) (q : Int) :
    (∀ st', (setInventoryLevel st i q).1 = .ok st' →
      st'.inv = applyWrites (invWrites (setInventoryLevel st i q).2) st.inv) ∧
    (∀ e, (setInventoryLevel st i q).1 = .error e →
      invWrites (setInventoryLevel st i q).2 = []) := by
  unfold setInventoryLevel
  rcases hloc : getLocationIdForItem st i with ⟨res, t⟩
  have hclean : invWrites t = [] := by
    have := (getLocationIdForItem_clean st i).1
    rw [hloc] at this
    exact this
  cases res with
  | error e =>
    refine ⟨fun st' h => ?_, fun e' h => hclean⟩
    simp at h
  | ok locId =>
    refine ⟨fun st' h => ?_, fun e' h => ?_⟩
    · cases h
      show _ = applyWrites (invWrites (t ++ [Call.sInvSet locId i q])) st.inv
      rw [show invWrites (t ++ [Call.sInvSet locId i q]) =
        invWrites t ++ [(locId, i, q)] from List.filterMap_append _ _ _, hclean]
      rfl
    · simp at h

theorem setInventoryLevel_no_price (st : ShopifyState) (i : Nat) (q : Int) :
    ∀ vid p, Call.sPriceUpdate vid p ∉ (setInventoryLevel st i q).2 := by
  intro vid p
  unfold setInventoryLevel
  rcases hloc : getLocationIdForItem st i with ⟨res, t⟩
  have hclean := (getLocationIdForItem_clean st i).2 vid p
  rw [hloc] at hclean
  cases res with
  | error e => exact hclean
  | ok locId =>
    intro hmem
    rcases List.mem_append.1 hmem with h | h
    · exact hclean h
    · simp [List.mem_cons] at h

theorem invWrites_append (a b : List Call) :
    invWrites (a ++ b) = invWrites a ++ invWrites b :=
  List.filterMap_append _ _ _

theorem applyWrites_append (a b : List (Nat × Nat × Int)) (f : Nat → Nat → Int) :
    applyWrites (a ++ b) f = applyWrites b (applyWrites a f) :=
  List.foldl_append _ _ _ _

theorem applyWrites_eval : ∀ (ws : List (Nat × Nat × Int)) (f : Nat → Nat → Int)
    (l i : Nat), applyWrites ws f l i = (lastWrite ws l i).getD (f l i) := by
  intro ws
  induction ws with
  | nil => intro f l i; rfl
  | cons w ws ih =>
    intro f l i
    show applyWrites ws _ l i = _
    rw [ih]
    show _ = (match lastWrite ws l i with
      | some q => some q
      | none => if l = w.1 ∧ i = w.2.1 then some w.2.2 else none).getD (f l i)
    rcases hlw : lastWrite ws l i with _ | q
    · by_cases hc : l = w.1 ∧ i = w.2.1 <;> simp [hc]
    · simp

theorem applyWrites_twice (ws : List (Nat × Nat × Int)) (f : Nat → Nat → Int) :
    applyWrites ws (applyWrites ws f) = applyWrites ws f := by
  funext l i
  rw [applyWrites_eval, applyWrites_eval]
  rcases hlw : lastWrite ws l i with _ | q
  · simp [applyWrites_eval, hlw]
  · simp

theorem zohoAdjLine_spec (host : Host) (zenv : ZohoEnv) (adj : Adjustment)
    (li : AdjLine) {s1 s2 : ShopifyState} (h : corrSt s1 s2) :
    (zohoAdjLine host zenv adj li s1).2 = (zohoAdjLine host zenv adj li s2).2 ∧
    corrSt (zohoAdjLine host zenv adj li s1).1 (zohoAdjLine host zenv adj li s2).1 ∧
    corrSt s1 (zohoAdjLine host zenv adj li s1).1 ∧
    (zohoAdjLine host zenv adj li s1).1.inv =
      applyWrites (invWrites (zohoAdjLine host zenv adj li s1).2) s1.inv := by
  unfold zohoAdjLine
  by_cases hid : li.item_id.truthy = true
  case neg =>
    have hid' : li.item_id.truthy = false := by
      cases hb : li.item_id.truthy
      · rfl
      · exact absurd hb hid
    simp only [hid', Bool.false_eq_true, if_false]
    exact ⟨by trivial, h, corrSt_refl s1, by trivial⟩
  simp only [hid, if_true]
  rcases hitem : zenv.itemById li.item_id with _ | item
  · exact ⟨rfl, h, corrSt_refl s1, rfl⟩
  by_cases hsku : truthyOptStr item.sku = true
  case neg =>
    have hsku' : truthyOptStr item.sku = false := by
      cases hb : truthyOptStr item.sku
      · rfl
      · exact absurd hb hsku
    simp only [hsku', Bool.false_eq_true, if_false]
    exact ⟨by trivial, h, corrSt_refl s1, by trivial⟩
  simp only [hsku, if_true]
  have hcorr := findVariantBySKU_corr host h (item.sku.getD "")
  rcases hres1 : findVariantBySKU host s1 (item.sku.getD "") with _ | v1 <;>
    rcases hres2 : findVariantBySKU host s2 (item.sku.getD "") with _ | v2 <;>
    rw [hres1, hres2] at hcorr
  · exact ⟨rfl, h, corrSt_refl s1, rfl⟩
  · exact hcorr.elim
  · exact hcorr.elim
  dsimp only
  rcases hq : adjNewQty host adj li item with _ | n
  · exact ⟨rfl, h, corrSt_refl s1, rfl⟩
  dsimp only
  rw [← hcorr.2.2]
  have hcg := setInventoryLevel_congr h v1.inventory_item_id n
  have hw := setInventoryLevel_writes s1 v1.inventory_item_id n
  have hp := setInventoryLevel_pres s1 v1.inventory_item_id n
  rcases hs1 : setInventoryLevel s1 v1.inventory_item_id n with ⟨r1, ts1⟩
  rcases hs2 : setInventoryLevel s2 v1.inventory_item_id n with ⟨r2, ts2⟩
  rw [hs1, hs2] at hcg
  rw [hs1] at hw hp
  have hts : ts1 = ts2 := hcg.1
  subst hts
  rcases hcg.2 with ⟨st1', st2', ho1, ho2, hcorr'⟩ | ⟨e, he1, he2⟩
  · cases ho1
    cases ho2
    refine ⟨rfl, hcorr', hp _ rfl, ?_⟩
    rw [invWrites_append]
    have ht1 : invWrites ([Call.zGetItem li.item_id] ++
        [Call.sVariantSearch (item.sku.getD "")]) = [] := rfl
    rw [ht1, List.nil_append]
    exact hw.1 _ rfl
  · cases he1
    cases he2
    refine ⟨rfl, h, corrSt_refl s1, ?_⟩
    rw [invWrites_append]
    have ht1 : invWrites ([Call.zGetItem li.item_id] ++
        [Call.sVariantSearch (item.sku.getD "")]) = [] := rfl
    rw [ht1, List.nil_append, hw.2 _ rfl]
    rfl

theorem zohoAdjLoop_spec (host : Host) (zenv : ZohoEnv) (adj : Adjustment) :
    ∀ (lines : List AdjLine) {s1 s2 : ShopifyState}, corrSt s1 s2 →
    (zohoAdjLoop host zenv adj lines s1).2 = (zohoAdjLoop host zenv adj lines s2).2 ∧
    corrSt (zohoAdjLoop host zenv adj lines s1).1 (zohoAdjLoop host zenv adj lines s2).1 ∧
    corrSt s1 (zohoAdjLoop host zenv adj lines s1).1 ∧
    (zohoAdjLoop host zenv adj lines s1).1.inv =
      applyWrites (invWrites (zohoAdjLoop host zenv adj lines s1).2) s1.inv := by
  intro lines
  induction lines with
  | nil => intro s1 s2 h; exact ⟨rfl, h, corrSt_refl s1, rfl⟩
  | cons li rest ih =>
    intro s1 s2 h
    obtain ⟨ht, hc, hself, hw⟩ := zohoAdjLine_spec host zenv adj li h
    obtain ⟨ht2, hc2, hself2, hw2⟩ := ih hc
    refine ⟨?_, hc2, corrSt_trans hself hself2, ?_⟩
    · show (zohoAdjLine host zenv adj li s1).2 ++ _ =
        (zohoAdjLine host zenv adj li s2).2 ++ _
      rw [ht, ht2]
    · show (zohoAdjLoop host zenv adj rest
          (zohoAdjLine host zenv adj li s1).1).1.inv =
        applyWrites (invWrites ((zohoAdjLine host zenv adj li s1).2 ++
          (zohoAdjLoop host zenv adj rest (zohoAdjLine host zenv adj li s1).1).2))
          s1.inv
      rw [invWrites_append, applyWrites_append, ← hw]
      exact hw2

theorem zohoFlatBranch_spec (host : Host) (body : ZBody) {s1 s2 : ShopifyState}
    (h : corrSt s1 s2) :
    (zohoFlatBranch host s1 body).trace = (zohoFlatBranch host s2 body).trace ∧
    corrSt (zohoFlatBranch host s1 body).st (zohoFlatBranch host s2 body).st ∧
    corrSt s1 (zohoFlatBranch host s1 body).st ∧
    (zohoFlatBranch host s1 body).st.inv =
      applyWrites (invWrites (zohoFlatBranch host s1 body).trace) s1.inv := by
  unfold zohoFlatBranch
  rcases hsku : pickSKU body with _ | sku
  · exact ⟨rfl, h, corrSt_refl s1, rfl⟩
  dsimp only
  by_cases hs : sku = ""
  · simp only [if_pos hs]
    exact ⟨by trivial, h, corrSt_refl s1, by trivial⟩
  simp only [if_neg hs]
  have hcorr := findVariantBySKU_corr host h sku
  rcases hres1 : findVariantBySKU host s1 sku with _ | v1 <;>
    rcases hres2 : findVariantBySKU host s2 sku with _ | v2 <;>
    rw [hres1, hres2] at hcorr
  · exact ⟨rfl, h, corrSt_refl s1, rfl⟩
  · exact hcorr.elim
  · exact hcorr.elim
  dsimp only
  rcases hp : pickPrice host body with _ | p <;> dsimp only
  · rcases ha : pickAvailableStock host body with _ | n <;> dsimp only
    · exact ⟨rfl, h, corrSt_refl s1, rfl⟩
    · rw [← hcorr.2.2]
      have hcg := setInventoryLevel_congr h v1.inventory_item_id n
      have hw := setInventoryLevel_writes s1 v1.inventory_item_id n
      have hpre := setInventoryLevel_pres s1 v1.inventory_item_id n
      rcases hs1 : setInventoryLevel s1 v1.inventory_item_id n with ⟨r1, ts1⟩
      rcases hs2 : setInventoryLevel s2 v1.inventory_item_id n with ⟨r2, ts2⟩
      rw [hs1, hs2] at hcg
      rw [hs1] at hw hpre
      have hts : ts1 = ts2 := hcg.1
      subst hts
      rcases hcg.2 with ⟨st1', st2', ho1, ho2, hcorr'⟩ | ⟨e, he1, he2⟩
      · cases ho1
        cases ho2
        refine ⟨rfl, hcorr', hpre _ rfl, ?_⟩
        dsimp only
        rw [invWrites_append,
          show invWrites ([Call.sVariantSearch sku] ++ []) = [] from rfl,
          List.nil_append]
        exact hw.1 _ rfl
      · cases he1
        cases he2
        refine ⟨rfl, h, corrSt_refl s1, ?_⟩
        dsimp only
        rw [invWrites_append,
          show invWrites ([Call.sVariantSearch sku] ++ []) = [] from rfl,
          List.nil_append, hw.2 _ rfl]
        rfl
  · rw [← hcorr.1, ← hcorr.2.2]
    have hu12 := updateVariantPrice_congr h v1.id (NumOrStr.toStr p)
    have hu1 := updateVariantPrice_self_corr s1 v1.id (NumOrStr.toStr p)
    rcases ha : pickAvailableStock host body with _ | n <;> dsimp only
    · exact ⟨by rfl, hu12, hu1, by rfl⟩
    · have hcg := setInventoryLevel_congr hu12 v1.inventory_item_id n
      have hw := setInventoryLevel_writes
        (updateVariantPrice s1 v1.id (NumOrStr.toStr p)).1 v1.inventory_item_id n
      have hpre := setInventoryLevel_pres
        (updateVariantPrice s1 v1.id (NumOrStr.toStr p)).1 v1.inventory_item_id n
      rcases hs1 : setInventoryLevel
          (updateVariantPrice s1 v1.id (NumOrStr.toStr p)).1
          v1.inventory_item_id n with ⟨r1, ts1⟩
      rcases hs2 : setInventoryLevel
          (updateVariantPrice s2 v1.id (NumOrStr.toStr p)).1
          v1.inventory_item_id n with ⟨r2, ts2⟩
      rw [hs1, hs2] at hcg
      rw [hs1] at hw hpre
      have hts : ts1 = ts2 := hcg.1
      subst hts
      rcases hcg.2 with ⟨st1', st2', ho1, ho2, hcorr'⟩ | ⟨e, he1, he2⟩
      · cases ho1
        cases ho2
        refine ⟨by rfl, hcorr', corrSt_trans hu1 (hpre _ rfl), ?_⟩
        dsimp only [updateVariantPrice]
        rw [invWrites_append,
          show invWrites ([Call.sVariantSearch sku] ++
            [Call.sPriceUpdate v1.id (NumOrStr.toStr p)]) = [] from rfl,
          List.nil_append]
        exact hw.1 _ rfl
      · cases he1
        cases he2
        refine ⟨by rfl, hu12, hu1, ?_⟩
        dsimp only [updateVariantPrice]
        rw [invWrites_append,
          show invWrites ([Call.sVariantSearch sku] ++
            [Call.sPriceUpdate v1.id (NumOrStr.toStr p)]) = [] from rfl,
          List.nil_append, hw.2 _ rfl]
        rfl

theorem zohoWebhookBody_spec (host : Host) (zenv : ZohoEnv) (body : ZBody)
    {s1 s2 : ShopifyState} (h : corrSt s1 s2) :
    (zohoWebhookBody host zenv s1 body).trace =
      (zohoWebhookBody host zenv s2 body).trace ∧
    corrSt s1 (zohoWebhookBody host zenv s1 body).st ∧
    (zohoWebhookBody host zenv s1 body).st.inv =
      applyWrites (invWrites (zohoWebhookBody host zenv s1 body).trace) s1.inv := by
  unfold zohoWebhookBody
  rcases hadj : body.inventory_adjustment with _ | adj <;> dsimp only
  · obtain ⟨a, b, c, d⟩ := zohoFlatBranch_spec host body h
    exact ⟨a, c, d⟩
  · obtain ⟨a, b, c, d⟩ := zohoAdjLoop_spec host zenv adj
      (match adj.line_items with | some ls => ls | none => []) h
    exact ⟨a, c, d⟩

theorem findVariantBySKU_exact (host : Host)
    (hmatch : ∀ q s, host.variantMatch q s = true → s = some q)
    (st : ShopifyState) (sku : String) :
    ∀ v, findVariantBySKU host st sku = some v →
      v ∈ st.variants ∧ v.sku = some sku := by
  intro v hv
  unfold findVariantBySKU at hv
  dsimp only at hv
  rcases hf : List.find? (fun w => decide (w.sku = some sku))
      (List.filter (fun w => host.variantMatch sku w.sku) st.variants)
      with _ | a <;> rw [hf] at hv
  case some =>
    cases hv
    have hmem := List.mem_of_find?_eq_some hf
    have hp := List.find?_some hf
    have hp' : v.sku = some sku := by simpa using hp
    exact ⟨List.mem_of_mem_filter hmem, hp'⟩
  case none =>
    have hvm : v ∈ st.variants.filter fun w => host.variantMatch sku w.sku := by
      rcases hfl : st.variants.filter fun w => host.variantMatch sku w.sku
          with _ | ⟨a, t⟩ <;> rw [hfl] at hv ⊢
      · cases hv
      · cases hv
        exact List.mem_cons_self _ _
    have hp := List.of_mem_filter hvm
    exact ⟨List.mem_of_mem_filter hvm, hmatch sku v.sku hp⟩

theorem forall2_id_map : ∀ {l1 l2 : List Variant},
    List.Forall₂ corrVar l1 l2 → l2.map (·.id) = l1.map (·.id) := by
  intro l1 l2 h
  induction h with
  | nil => rfl
  | @cons a b l1' l2' hab htl ih => simp [ih, hab.1]

theorem corr_id_map {s1 s2 : ShopifyState} (h : corrSt s1 s2) :
    s2.variants.map (·.id) = s1.variants.map (·.id) :=
  forall2_id_map h.1

theorem corr_transport_res (host : Host) {s1 s2 : ShopifyState} (h : corrSt s1 s2)
    (sku : String) {v : Variant} (hres : findVariantBySKU host s1 sku = some v) :
    ∃ v2, findVariantBySKU host s2 sku = some v2 ∧ corrVar v v2 := by
  have hc := findVariantBySKU_corr host h sku
  rw [hres] at hc
  rcases h2 : findVariantBySKU host s2 sku with _ | v2 <;> rw [h2] at hc
  · exact hc.elim
  · exact ⟨v2, rfl, hc⟩

theorem find_id_of_mem_nodup : ∀ (l : List Variant), (l.map (·.id)).Nodup →
    ∀ w ∈ l, l.find? (fun v => decide (v.id = w.id)) = some w := by
  intro l
  induction l with
  | nil => intro _ w hw; cases hw
  | cons a t ih =>
    intro hnd w hw
    rw [List.map_cons, List.nodup_cons] at hnd
    rcases List.mem_cons.mp hw with rfl | hwt
    · rw [List.find?_cons_of_pos _ (by simp)]
    · by_cases hid : a.id = w.id
      · exact absurd (hid ▸ List.mem_map_of_mem (fun v => v.id) hwt) hnd.1
      · rw [List.find?_cons_of_neg _ (by simpa using hid)]
        exact ih hnd.2 w hwt

theorem priceAt_of_mem {st : ShopifyState} (hnd : (st.variants.map (·.id)).Nodup)
    {w : Variant} (hw : w ∈ st.variants) : priceAt st w.id = some w.price := by
  unfold priceAt
  rw [find_id_of_mem_nodup st.variants hnd w hw]
  rfl

theorem find_id_map_upd_other (vid vid' : Nat) (p : String) (h : vid' ≠ vid) :
    ∀ l : List Variant,
      (((l.map fun v => if v.id = vid then { v with price := p } else v).find?
        (fun v => decide (v.id = vid'))).map (·.price)) =
      ((l.find? (fun v => decide (v.id = vid'))).map (·.price)) := by
  intro l
  induction l with
  | nil => rfl
  | cons a t ih =>
    rw [List.map_cons]
    by_cases ha : a.id = vid
    · rw [if_pos ha]
      have hne : ¬ a.id = vid' := by rw [ha]; exact fun hh => h hh.symm
      rw [List.find?_cons_of_neg _ (by simpa using hne),
        List.find?_cons_of_neg _ (by simpa using hne)]
      exact ih
    · rw [if_neg ha]
      by_cases h' : a.id = vid'
      · rw [List.find?_cons_of_pos _ (by simpa using h'),
          List.find?_cons_of_pos _ (by simpa using h')]
      · rw [List.find?_cons_of_neg _ (by simpa using h'),
          List.find?_cons_of_neg _ (by simpa using h')]
        exact ih

theorem find_id_map_upd_self (vid : Nat) (p : String) :
    ∀ l : List Variant,
      (((l.map fun v => if v.id = vid then { v with price := p } else v).find?
        (fun v => decide (v.id = vid))).map (·.price)) =
      (((l.find? (fun v => decide (v.id = vid))).map (·.price)).map fun _ => p) := by
  intro l
  induction l with
  | nil => rfl
  | cons a t ih =>
    rw [List.map_cons]
    by_cases ha : a.id = vid
    · rw [if_pos ha]
      rw [List.find?_cons_of_pos _ (by simpa using ha),
        List.find?_cons_of_pos _ (by simpa using ha)]
      rfl
    · rw [if_neg ha]
      rw [List.find?_cons_of_neg _ (by simpa using ha),
        List.find?_cons_of_neg _ (by simpa using ha)]
      exact ih

theorem priceAt_update_other (st : ShopifyState) (vid vid' : Nat) (p : String)
    (h : vid' ≠ vid) :
    priceAt (updateVariantPrice st vid p).1 vid' = priceAt st vid' :=
  find_id_map_upd_other vid vid' p h st.variants

theorem priceAt_update_self (st : ShopifyState) (vid : Nat) (p : String) :
    priceAt (updateVariantPrice st vid p).1 vid =
      ((priceAt st vid).map fun _ => p) :=
  find_id_map_upd_self vid p st.variants

theorem setInventoryLevel_variants (st : ShopifyState) (i : Nat) (q : Int) :
    ∀ st', (setInventoryLevel st i q).1 = .ok st' → st'.variants = st.variants := by
  intro st' hok
  unfold setInventoryLevel at hok
  rcases hloc : getLocationIdForItem st i with ⟨res, t⟩
  rw [hloc] at hok
  cases res with
  | error e => cases hok
  | ok locId =>
    cases hok
    rfl

theorem priceAt_eq_of_variants {s1 s2 : ShopifyState}
    (h : s1.variants = s2.variants) (vid : Nat) :
    priceAt s1 vid = priceAt s2 vid := by
  unfold priceAt
  rw [h]

theorem syncStock_facts (host : Host) (it : ZItem) (v : Variant)
    (base : ShopifyState) (prior : List Call) :
    corrSt base (syncStock host it v base prior).st ∧
    (syncStock host it v base prior).st.variants = base.variants ∧
    (∀ vid p, Call.sPriceUpdate vid p ∈ (syncStock host it v base prior).trace →
      Call.sPriceUpdate vid p ∈ prior) ∧
    (∃ t2, (syncStock host it v base prior).trace = prior ++ t2) := by
  unfold syncStock
  rcases hav : syncAvailable it with _ | n | s | b
  case nullish => exact ⟨corrSt_refl base, rfl, fun vid p h => h, [], by simp⟩
  case num =>
    dsimp only
    rcases hset : setInventoryLevel base v.inventory_item_id n with ⟨res, t2⟩
    have hnp : ∀ vid p, Call.sPriceUpdate vid p ∉ t2 := by
      intro vid p
      have := setInventoryLevel_no_price base v.inventory_item_id n vid p
      rw [hset] at this
      exact this
    cases res with
    | ok st2 =>
      dsimp only
      have hpres : corrSt base st2 := by
        apply setInventoryLevel_pres base v.inventory_item_id n st2
        rw [hset]
      have hvar : st2.variants = base.variants := by
        apply setInventoryLevel_variants base v.inventory_item_id n st2
        rw [hset]
      refine ⟨hpres, hvar, fun vid p hmem => ?_, t2, rfl⟩
      rcases List.mem_append.1 hmem with h | h
      · exact h
      · exact absurd h (hnp vid p)
    | error e =>
      dsimp only
      refine ⟨corrSt_refl base, rfl, fun vid p hmem => ?_, t2, rfl⟩
      rcases List.mem_append.1 hmem with h | h
      · exact h
      · exact absurd h (hnp vid p)
  case str => exact ⟨corrSt_refl base, rfl, fun vid p h => h, [], by simp⟩
  case jbool => exact ⟨corrSt_refl base, rfl, fun vid p h => h, [], by simp⟩

theorem syncItem_price_iff (host : Host) (it : ZItem) (st : ShopifyState)
    {k r : String} {v : Variant}
    (hsku : it.sku = some k) (hkne : k ≠ "") (hrate : it.rate = some r)
    (hrne : r ≠ "") (hres : findVariantBySKU host st k = some v) :
    (∃ p, Call.sPriceUpdate v.id p ∈ (syncItem host it st).trace) ↔
      v.price ≠ r := by
  have hsku0 : truthyOptStr it.sku = true := by
    rw [hsku]
    simpa [truthyOptStr] using hkne
  unfold syncItem
  rw [if_neg (fun hn => hn hsku0), hsku]
  dsimp only [Option.getD]
  rw [hres]
  dsimp only
  rw [hrate]
  dsimp only
  by_cases hpr : v.price = r
  · rw [if_neg (fun hc => hc.2 hpr)]
    refine iff_of_false ?_ (fun h => h hpr)
    rintro ⟨p, hp⟩
    have := (syncStock_facts host it v st ([Call.sVariantSearch k] ++ [])).2.2.1
      v.id p hp
    simp at this
  · rw [if_pos ⟨hrne, hpr⟩]
    refine iff_of_true ⟨r, ?_⟩ hpr
    obtain ⟨t2, ht⟩ := (syncStock_facts host it v
      (updateVariantPrice st v.id r).1
      ([Call.sVariantSearch k] ++ (updateVariantPrice st v.id r).2)).2.2.2
    rw [ht]
    simp [updateVariantPrice]

theorem syncItem_target (host : Host) {k r : String} {st0 : ShopifyState}
    {v : Variant}
    (hmatch : ∀ q s, host.variantMatch q s = true → s = some q)
    (hids : (st0.variants.map (·.id)).Nodup)
    (hres0 : findVariantBySKU host st0 k = some v)
    (hkne : k ≠ "")
    (it : ZItem) {st' : ShopifyState} (hcorr : corrSt st0 st')
    (hben : ∀ s, it.sku = some s → s ≠ "" → s = k → it.rate = some r) :
    corrSt st0 (syncItem host it st').st ∧
    (priceAt st' v.id = some r →
      priceAt (syncItem host it st').st v.id = some r ∧
      ∀ p, Call.sPriceUpdate v.id p ∉ (syncItem host it st').trace) ∧
    (it.sku = some k → it.rate = some r → r ≠ "" →
      priceAt (syncItem host it st').st v.id = some r) := by
  have hnd' : (st'.variants.map (·.id)).Nodup := by
    rw [corr_id_map hcorr]; exact hids
  obtain ⟨v2, hres2, hvv2⟩ := corr_transport_res host hcorr k hres0
  have hv2f := findVariantBySKU_exact host hmatch st' k v2 hres2
  unfold syncItem
  by_cases hsku : truthyOptStr it.sku = true
  · obtain ⟨s0, hs0, hs0ne⟩ := truthyOptStr_some _ hsku
    rw [if_neg (fun hn => hn hsku), hs0]
    dsimp only [Option.getD]
    by_cases hsk : s0 = k
    · subst hsk
      rw [hres2] at *
      rw [hres2]
      dsimp only
      have hrate : it.rate = some r := hben s0 hs0 hs0ne rfl
      rw [hrate]
      dsimp only
      have hpa : priceAt st' v2.id = some v2.price :=
        priceAt_of_mem hnd' hv2f.1
      by_cases hcnd : r ≠ "" ∧ v2.price ≠ r
      · rw [if_pos hcnd]
        obtain ⟨hstc, hstv, hstp, _⟩ := syncStock_facts host it v2
          (updateVariantPrice st' v2.id r).1
          ([Call.sVariantSearch s0] ++ (updateVariantPrice st' v2.id r).2)
        refine ⟨corrSt_trans hcorr (corrSt_trans
          (updateVariantPrice_self_corr st' v2.id r) hstc), ?_, ?_⟩
        · intro hprice
          exfalso
          rw [hvv2.1, hpa] at hprice
          exact hcnd.2 (Option.some.inj hprice)
        · intro _ _ _
          rw [priceAt_eq_of_variants hstv, hvv2.1, priceAt_update_self, hpa]
          rfl
      · rw [if_neg hcnd]
        obtain ⟨hstc, hstv, hstp, _⟩ := syncStock_facts host it v2 st'
          ([Call.sVariantSearch s0] ++ [])
        have hkeep : priceAt (syncStock host it v2 st'
            ([Call.sVariantSearch s0] ++ [])).st v.id = priceAt st' v.id :=
          priceAt_eq_of_variants hstv v.id
        refine ⟨corrSt_trans hcorr hstc, ?_, ?_⟩
        · intro hprice
          refine ⟨hkeep.trans hprice, fun p hp => ?_⟩
          have := hstp v.id p hp
          simp at this
        · intro _ _ hrne
          have hpr : v2.price = r := by
            by_contra hne
            exact hcnd ⟨hrne, hne⟩
          rw [hkeep, hvv2.1, hpa, hpr]
    · rcases hres' : findVariantBySKU host st' s0 with _ | w
      · dsimp only
        refine ⟨hcorr, fun hp => ⟨hp, fun p hmem => by simp at hmem⟩, ?_⟩
        intro hk' _ _
        exact absurd (Option.some.inj hk') hsk
      · dsimp only
        have hwf := findVariantBySKU_exact host hmatch st' s0 w hres'
        have hwid : w.id ≠ v.id := by
          intro hid
          have hwv2 : w = v2 := List.inj_on_of_nodup_map hnd' hwf.1 hv2f.1
            (hid.trans hvv2.1)
          rw [hwv2] at hwf
          rw [hv2f.2] at hwf
          exact hsk (Option.some.inj hwf.2.symm)
        have hvw : v.id ≠ w.id := fun h => hwid h.symm
        by_cases hcnd : (match it.rate with | some rr => rr | none => "") ≠ "" ∧
            w.price ≠ (match it.rate with | some rr => rr | none => "")
        · rw [if_pos hcnd]
          obtain ⟨hstc, hstv, hstp, _⟩ := syncStock_facts host it w
            (updateVariantPrice st' w.id
              (match it.rate with | some rr => rr | none => "")).1
            ([Call.sVariantSearch s0] ++ (updateVariantPrice st' w.id
              (match it.rate with | some rr => rr | none => "")).2)
          have hkeep : priceAt (syncStock host it w
              (updateVariantPrice st' w.id
                (match it.rate with | some rr => rr | none => "")).1
              ([Call.sVariantSearch s0] ++ (updateVariantPrice st' w.id
                (match it.rate with | some rr => rr | none => "")).2)).st v.id =
              priceAt st' v.id := by
            rw [priceAt_eq_of_variants hstv v.id]
            exact priceAt_update_other st' w.id v.id _ hvw
          refine ⟨corrSt_trans hcorr (corrSt_trans
            (updateVariantPrice_self_corr st' w.id _) hstc), ?_, ?_⟩
          · intro hprice
            refine ⟨hkeep.trans hprice, fun p hp => ?_⟩
            have hmem := hstp v.id p hp
            rcases List.mem_append.1 hmem with h | h
            · simp at h
            · simp only [updateVariantPrice, List.mem_singleton] at h
              injection h with h1 h2
              exact hvw h1
          · intro hk' _ _
            exact absurd (Option.some.inj hk') hsk
        · rw [if_neg hcnd]
          obtain ⟨hstc, hstv, hstp, _⟩ := syncStock_facts host it w st'
            ([Call.sVariantSearch s0] ++ [])
          have hkeep : priceAt (syncStock host it w st'
              ([Call.sVariantSearch s0] ++ [])).st v.id = priceAt st' v.id :=
            priceAt_eq_of_variants hstv v.id
          refine ⟨corrSt_trans hcorr hstc, ?_, ?_⟩
          · intro hprice
            refine ⟨hkeep.trans hprice, fun p hp => ?_⟩
            have := hstp v.id p hp
            simp at this
          · intro hk' _ _
            exact absurd (Option.some.inj hk') hsk
  · rw [if_pos hsku]
    refine ⟨hcorr, fun hp => ⟨hp, fun p hmem => by simp at hmem⟩, ?_⟩
    intro hk' _ _
    exfalso
    apply hsku
    rw [hk']
    simpa [truthyOptStr] using hkne

theorem syncItems_target (host : Host) {k r : String} {st0 : ShopifyState}
    {v : Variant}
    (hmatch : ∀ q s, host.variantMatch q s = true → s = some q)
    (hids : (st0.variants.map fun x => x.id).Nodup)
    (hres0 : findVariantBySKU host st0 k = some v) (hkne : k ≠ "") :
    ∀ (its : List ZItem) (st' : ShopifyState), corrSt st0 st' →
      (∀ it ∈ its, ∀ s, it.sku = some s → s ≠ "" → s = k → it.rate = some r) →
      corrSt st0 (syncItems host its st').st ∧
      (priceAt st' v.id = some r →
        priceAt (syncItems host its st').st v.id = some r ∧
        ∀ p, Call.sPriceUpdate v.id p ∉ (syncItems host its st').trace) ∧
      (∀ it0 ∈ its, it0.sku = some k → it0.rate = some r → r ≠ "" →
        (syncItems host its st').err = none →
        priceAt (syncItems host its st').st v.id = some r) := by
  intro its
  induction its with
  | nil =>
    intro st' hcorr _
    exact ⟨hcorr, fun hp => ⟨hp, fun p hmem => List.not_mem_nil _ hmem⟩,
      fun it0 h => absurd h (List.not_mem_nil _)⟩
  | cons it rest ih =>
    intro st' hcorr hall
    have hit := syncItem_target host hmatch hids hres0 hkne it hcorr
      (hall it (List.mem_cons_self _ _))
    simp only [syncItems]
    rcases herr : (syncItem host it st').err with _ | e <;> dsimp only
    · have hih := ih (syncItem host it st').st hit.1
        (fun q hq => hall q (List.mem_cons_of_mem _ hq))
      refine ⟨hih.1, ?_, ?_⟩
      · intro hp
        obtain ⟨hk1, hs1⟩ := hit.2.1 hp
        obtain ⟨hk2, hs2⟩ := hih.2.1 hk1
        refine ⟨hk2, fun p hmem => ?_⟩
        rcases List.mem_append.1 hmem with h | h
        · exact hs1 p h
        · exact hs2 p h
      · intro it0 hmem0 hk0 hr0 hrne herr2
        rcases List.mem_cons.1 hmem0 with rfl | h0
        · have hest := hit.2.2 hk0 hr0 hrne
          exact (hih.2.1 hest).1
        · exact hih.2.2 it0 h0 hk0 hr0 hrne herr2
    · refine ⟨hit.1, ?_, ?_⟩
      · intro hp
        exact hit.2.1 hp
      · intro it0 _ _ _ _ herr2
        cases herr2

theorem syncLoop_target (host : Host) (zenv : ZohoEnv) {k r : String}
    {st0 : ShopifyState} {v : Variant}
    (hmatch : ∀ q s, host.variantMatch q s = true → s = some q)
    (hids : (st0.variants.map fun x => x.id).Nodup)
    (hres0 : findVariantBySKU host st0 k = some v) (hkne : k ≠ "")
    (hall : ∀ P, ∀ it ∈ (zenv.pages P).items,
      ∀ s, it.sku = some s → s ≠ "" → s = k → it.rate = some r) :
    ∀ fuel page st', corrSt st0 st' →
      ∀ out, syncLoop host zenv fuel page st' = some out →
      corrSt st0 out.st ∧
      (priceAt st' v.id = some r →
        priceAt out.st v.id = some r ∧
        ∀ p, Call.sPriceUpdate v.id p ∉ out.trace) ∧
      (∀ P ∈ out.pages, ∀ it0 ∈ (zenv.pages P).items,
        it0.sku = some k → it0.rate = some r → r ≠ "" → out.err = none →
        priceAt out.st v.id = some r) := by
  intro fuel
  induction fuel with
  | zero => intro page st' _ out hout; cases hout
  | succ fuel ih =>
    intro page st' hcorr out hout
    unfold syncLoop at hout
    by_cases hemp : (zenv.pages page).items.isEmpty = true
    · rw [if_pos hemp] at hout
      cases hout
      refine ⟨hcorr, fun hp => ⟨hp, fun p hmem => by simp at hmem⟩, ?_⟩
      intro P hP it0 hit0 _ _ _ _
      exfalso
      have hPp : P = page := by simpa using hP
      rw [List.isEmpty_iff] at hemp
      rw [hPp, hemp] at hit0
      exact List.not_mem_nil _ hit0
    · rw [if_neg hemp] at hout
      dsimp only at hout
      have hsi := syncItems_target host hmatch hids hres0 hkne
        (zenv.pages page).items st' hcorr (hall page)
      rcases herr : (syncItems host (zenv.pages page).items st').err with _ | e
      · rw [herr] at hout
        dsimp only at hout
        by_cases hmore : (zenv.pages page).has_more_page = true
        · rw [if_pos hmore] at hout
          rcases hrec : syncLoop host zenv fuel (page + 1)
              (syncItems host (zenv.pages page).items st').st with _ | o
          · rw [hrec] at hout; cases hout
          · rw [hrec] at hout
            cases hout
            have ho := ih (page + 1)
              (syncItems host (zenv.pages page).items st').st hsi.1 o hrec
            refine ⟨ho.1, ?_, ?_⟩
            · intro hp
              obtain ⟨hk1, hs1⟩ := hsi.2.1 hp
              obtain ⟨hk2, hs2⟩ := ho.2.1 hk1
              refine ⟨hk2, fun p hmem => ?_⟩
              rcases List.mem_append.1 hmem with h | h
              · rcases List.mem_append.1 h with h' | h'
                · simp at h'
                · exact hs1 p h'
              · exact hs2 p h
            · intro P hP it0 hit0 hk0 hr0 hrne herr2
              rcases List.mem_cons.1 hP with rfl | hPo
              · have hest := hsi.2.2 it0 hit0 hk0 hr0 hrne herr
                exact (ho.2.1 hest).1
              · exact ho.2.2 P hPo it0 hit0 hk0 hr0 hrne herr2
        · rw [if_neg hmore] at hout
          cases hout
          refine ⟨hsi.1, ?_, ?_⟩
          · intro hp
            obtain ⟨hk1, hs1⟩ := hsi.2.1 hp
            refine ⟨hk1, fun p hmem => ?_⟩
            rcases List.mem_append.1 hmem with h | h
            · simp at h
            · exact hs1 p h
          · intro P hP it0 hit0 hk0 hr0 hrne _
            have hPp : P = page := by simpa using hP
            subst hPp
            exact hsi.2.2 it0 hit0 hk0 hr0 hrne herr
      · rw [herr] at hout
        dsimp only at hout
        cases hout
        refine ⟨hsi.1, ?_, ?_⟩
        · intro hp
          obtain ⟨hk1, hs1⟩ := hsi.2.1 hp
          refine ⟨hk1, fun p hmem => ?_⟩
          rcases List.mem_append.1 hmem with h | h
          · simp at h
          · exact hs1 p h
        · intro P _ it0 _ _ _ _ herr2
          cases herr2

theorem syncLoop_stops_at_first (host : Host) (zenv : ZohoEnv) :
    ∀ d start st fuel,
      stopCond (zenv.pages (start + d)) = true →
      (∀ e, e < d → stopCond (zenv.pages (start + e)) = false) →
      d < fuel →
      ∃ out, syncLoop host zenv fuel start st = some out ∧
        (out.err = none → out.pages = List.range' start (d + 1)) := by
  intro d
  induction d with
  | zero =>
    intro start st fuel hstop _ hfuel
    obtain ⟨f, rfl⟩ : ∃ f, fuel = f + 1 := by
      cases fuel with
      | zero => cases hfuel
      | succ f => exact ⟨f, rfl⟩
    rw [Nat.add_zero] at hstop
    unfold syncLoop
    by_cases hemp : (zenv.pages start).items.isEmpty = true
    · rw [if_pos hemp]
      exact ⟨_, rfl, fun _ => rfl⟩
    · have hmore : (zenv.pages start).has_more_page = false := by
        unfold stopCond at hstop
        rcases hb : (zenv.pages start).has_more_page
        · rfl
        · rw [hb] at hstop
          simp [hemp] at hstop
      rw [if_neg hemp]
      rcases herr : (syncItems host (zenv.pages start).items st).err with _ | e
      · simp only [herr, hmore, Bool.false_eq_true, if_false]
        exact ⟨_, rfl, fun _ => rfl⟩
      · simp only [herr]
        exact ⟨_, rfl, fun h => by cases h⟩
  | succ d ih =>
    intro start st fuel hstop hfirst hfuel
    obtain ⟨f, rfl⟩ : ∃ f, fuel = f + 1 := by
      cases fuel with
      | zero => cases hfuel
      | succ f => exact ⟨f, rfl⟩
    have hns : stopCond (zenv.pages start) = false := by
      have := hfirst 0 (Nat.succ_pos d)
      rwa [Nat.add_zero] at this
    have hemp : (zenv.pages start).items.isEmpty = false := by
      unfold stopCond at hns
      rcases hb : (zenv.pages start).items.isEmpty
      · rfl
      · rw [hb] at hns; simp at hns
    have hmore : (zenv.pages start).has_more_page = true := by
      unfold stopCond at hns
      rcases hb : (zenv.pages start).has_more_page
      · rw [hb] at hns; simp [hemp] at hns
      · rfl
    unfold syncLoop
    rw [if_neg (by simp [hemp])]
    rcases herr : (syncItems host (zenv.pages start).items st).err with _ | e
    · simp only [herr, hmore, if_true]
      have hrec := ih (start + 1) (syncItems host (zenv.pages start).items st).st f
        (by
          have harith : start + 1 + d = start + (d + 1) := by omega
          rw [harith]
          exact hstop)
        (fun e he => by
          have := hfirst (e + 1) (Nat.succ_lt_succ he)
          have harith : start + 1 + e = start + (e + 1) := by omega
          rw [harith]
          exact this)
        (Nat.lt_of_succ_lt_succ hfuel)
      obtain ⟨out, hout, hpages⟩ := hrec
      rw [hout]
      refine ⟨_, rfl, fun h => ?_⟩
      have := hpages h
      simp only [this]
      rfl
    · simp only [herr]
      exact ⟨_, rfl, fun h => by cases h⟩

/-! ## Claim theorems -/

/-- C1: a backend inventory webhook request whose HMAC signature fails
verification against the configured secret (base64 comparison and hex
fallback both, `zohoSigBranch = false`) and which carries no shared-secret
header equal to the secret (`zohoSecretHeaderOk = false`) is answered with
401 and issues no vendor call at all. -/
theorem zoho_webhook_unauthorized_rejects (host : Host) (s : String)
    (zenv : ZohoEnv) (st : ShopifyState) (req : ZReq) (hs : s ≠ "")
    (hsig : zohoSigBranch host s req = false)
    (hhdr : zohoSecretHeaderOk req.headers s = false) :
    (zohoWebhook host (some s) zenv st req).status = 401 ∧
    (zohoWebhook host (some s) zenv st req).trace = [] := by
  simp [zohoWebhook, zohoAuthorized, hs, hsig, hhdr]

/-- Witness for C1: a concrete request whose signature "X" fails both digest
comparisons against secret "sec" and which has no secret header is rejected
with 401 and an empty call trace. -/
theorem zoho_webhook_unauthorized_rejects_witness :
    ("sec" ≠ "" ∧ zohoSigBranch hostW "sec" badSigReq = false ∧
      zohoSecretHeaderOk badSigReq.headers "sec" = false) ∧
    (zohoWebhook hostW (some "sec") zenvEmpty stEmpty badSigReq).status = 401 ∧
    (zohoWebhook hostW (some "sec") zenvEmpty stEmpty badSigReq).trace = [] :=
  ⟨⟨by decide, by decide, by decide⟩,
    zoho_webhook_unauthorized_rejects hostW "sec" zenvEmpty stEmpty badSigReq
      (by decide) (by decide) (by decide)⟩

/-- C5 (divergence evaluation): a Zoho item with no `available_stock` but a
numeric `stock_on_hand` of 5, whose sku resolves to a storefront variant, gets
no stock update from the sync: the source expression
`(typeof item.available_stock === "number" && item.available_stock) ?? ...`
evaluates to `false` (which is not nullish, so the `??` fallbacks are dead)
and the `typeof available === "number"` guard fails. -/
theorem sync_stock_fallback_dead :
    zItemStockOnly.available_stock = none ∧
    zItemStockOnly.stock_on_hand = some 5 ∧
    (findVariantBySKU hostW stOneVariant "A").isSome = true ∧
    syncAvailable zItemStockOnly = JVal.jbool false ∧
    (syncItem hostW zItemStockOnly stOneVariant).err = none ∧
    (syncItem hostW zItemStockOnly stOneVariant).trace.filter isInvSet = [] := by
  decide

/-- C8: a vendor-client call whose environment configuration misses a
required value fails with `ConfigurationError` naming the first missing
value; with nothing missing the configuration check passes; and every
configuration-check failure is a `ConfigurationError` naming a value that is
actually missing — for both the Shopify and the Zoho client. -/
theorem missing_env_yields_configuration_error (scfg : ShopifyCfg) (zcfg : ZohoCfg) :
    ((∀ n rest, missingNames (shopifyRequired scfg) = n :: rest →
        shopifyCallConfig scfg = .error (.configurationError n)) ∧
      (missingNames (shopifyRequired scfg) = [] →
        ∃ vals, shopifyCallConfig scfg = .ok vals) ∧
      (∀ e, shopifyCallConfig scfg = .error e →
        ∃ n, e = .configurationError n ∧ n ∈ missingNames (shopifyRequired scfg))) ∧
    ((∀ n rest, missingNames (zohoRequired zcfg) = n :: rest →
        zohoCallConfig zcfg = .error (.configurationError n)) ∧
      (missingNames (zohoRequired zcfg) = [] →
        ∃ vals, zohoCallConfig zcfg = .ok vals) ∧
      (∀ e, zohoCallConfig zcfg = .error e →
        ∃ n, e = .configurationError n ∧ n ∈ missingNames (zohoRequired zcfg))) :=
  ⟨requireAll_spec (shopifyRequired scfg), requireAll_spec (zohoRequired zcfg)⟩

/-- Witness for C8: with `SHOPIFY_ACCESS_TOKEN` missing the Shopify client
configuration check fails naming it, and a fully configured Zoho client
passes its check. -/
theorem missing_env_yields_configuration_error_witness :
    shopifyCallConfig { domain := some "d", token := none } =
      .error (.configurationError "SHOPIFY_ACCESS_TOKEN") ∧
    ∃ vals, zohoCallConfig
      { baseUrl := some "b", accountsUrl := some "a", clientId := some "c",
        clientSecret := some "s", refreshToken := some "r", orgId := some "o" } =
      .ok vals :=
  ⟨(missing_env_yields_configuration_error { domain := some "d", token := none }
      { baseUrl := some "b", accountsUrl := some "a", clientId := some "c",
        clientSecret := some "s", refreshToken := some "r", orgId := some "o" }).1.1
      "SHOPIFY_ACCESS_TOKEN" [] (by decide),
   (missing_env_yields_configuration_error { domain := some "d", token := none }
      { baseUrl := some "b", accountsUrl := some "a", clientId := some "c",
        clientSecret := some "s", refreshToken := some "r", orgId := some "o" }).2.2.1
      (by decide)⟩

/-- C2: for an order with a truthy email, at least one resolvable line, and
at least one unresolvable line, the push issues exactly one sales-order
creation, whose line items are exactly the resolved lines (the unresolvable
ones are skipped), and the push succeeds. -/
theorem order_push_single_salesorder_resolved_lines (zenv : ZohoEnv)
    (order : Order)
    (he : truthyOptStr (orT order.email (order.customer.bind (·.email))) = true)
    (hres : resolvedLines zenv order ≠ [])
    (hunres : ∃ li ∈ order.line_items, resolvedOfLine zenv li = none) :
    (pushShopifyOrderToZoho zenv order).1 =
      .ok (some
        { customer_id := (resolvedContact zenv
            ((orT order.email (order.customer.bind (·.email))).getD "")
            (customerNameOf order)).contact_id
          reference_number := jsString order.id
          line_items := (resolvedLines zenv order).map (expectedSalesLine zenv) }) ∧
    soCreates (pushShopifyOrderToZoho zenv order).2 =
      [Call.zCreateSalesOrder
        (resolvedContact zenv
          ((orT order.email (order.customer.bind (·.email))).getD "")
          (customerNameOf order)).contact_id
        (jsString order.id)
        ((resolvedLines zenv order).map (expectedSalesLine zenv))] := by
  obtain ⟨e, heq, hne⟩ := truthyOptStr_some _ he
  have hcf : (collectLines zenv order.line_items).1 = resolvedLines zenv order :=
    collectLines_fst zenv order.line_items
  have hresolve : ∀ pl ∈ (collectLines zenv order.line_items).1,
      (findZohoItemBySKU zenv pl.sku).isSome = true :=
    collectLines_resolvable zenv order.line_items
  obtain ⟨tc, hcon⟩ := getOrCreateContact_ok zenv e (customerNameOf order) hne
  have htc : soCreates tc = [] := by
    have := getOrCreate_soCreates zenv e (customerNameOf order)
    rw [hcon] at this
    exact this
  rcases hb : buildSalesLines zenv (collectLines zenv order.line_items).1
    with ⟨bres, tb⟩
  have hbres : bres = .ok (((collectLines zenv order.line_items).1).map
      (expectedSalesLine zenv)) := by
    have := buildSalesLines_ok_eq zenv (collectLines zenv order.line_items).1 hresolve
    rw [hb] at this
    exact this
  subst hbres
  have htb : soCreates tb = [] := by
    have := buildSalesLines_soCreates zenv (collectLines zenv order.line_items).1
    rw [hb] at this
    exact this
  have hso : createZohoSalesOrder zenv
      { customerEmail := e
        customerName := customerNameOf order
        referenceNumber := jsString order.id
        lineItems := (collectLines zenv order.line_items).1 } =
      (.ok { customer_id := (resolvedContact zenv e (customerNameOf order)).contact_id
             reference_number := jsString order.id
             line_items := ((collectLines zenv order.line_items).1).map
               (expectedSalesLine zenv) },
        tc ++ tb ++
          [Call.zCreateSalesOrder (resolvedContact zenv e (customerNameOf order)).contact_id
            (jsString order.id)
            (((collectLines zenv order.line_items).1).map (expectedSalesLine zenv))]) := by
    unfold createZohoSalesOrder
    dsimp only
    rw [hcon]
    dsimp only
    rw [hb]
  have hemp : ((collectLines zenv order.line_items).1).isEmpty = false := by
    rw [hcf]
    rcases h : resolvedLines zenv order with _ | ⟨x, xs⟩
    · exact absurd h hres
    · rfl
  have hcs : soCreates (collectLines zenv order.line_items).2 = [] :=
    collectLines_soCreates zenv order.line_items
  unfold pushShopifyOrderToZoho
  rw [heq]
  dsimp only [Option.getD]
  rw [if_neg hne]
  rw [hemp]
  rw [hso]
  rw [hcf]
  refine ⟨?_, ?_⟩
  · rfl
  · simp only [Bool.false_eq_true, if_false]
    rw [soCreates_append, soCreates_append, soCreates_append, hcs, htc, htb]
    rfl

/-- Witness for C2: for the order with lines `[{sku:"A",qty:2},{sku:"B",qty:1}]`
where only "A" resolves in Zoho, the push creates exactly one sales order and
its line items are exactly the "A" line. -/
theorem order_push_single_salesorder_resolved_lines_witness :
    ((truthyOptStr (orT orderAB.email (orderAB.customer.bind (·.email))) = true ∧
        resolvedLines zenvA orderAB ≠ [] ∧
        ∃ li ∈ orderAB.line_items, resolvedOfLine zenvA li = none) ∧
      (pushShopifyOrderToZoho zenvA orderAB).1 =
        .ok (some
          { customer_id := (resolvedContact zenvA
              ((orT orderAB.email (orderAB.customer.bind (·.email))).getD "")
              (customerNameOf orderAB)).contact_id
            reference_number := jsString orderAB.id
            line_items := (resolvedLines zenvA orderAB).map (expectedSalesLine zenvA) }) ∧
      soCreates (pushShopifyOrderToZoho zenvA orderAB).2 =
        [Call.zCreateSalesOrder
          (resolvedContact zenvA
            ((orT orderAB.email (orderAB.customer.bind (·.email))).getD "")
            (customerNameOf orderAB)).contact_id
          (jsString orderAB.id)
          ((resolvedLines zenvA orderAB).map (expectedSalesLine zenvA))]) ∧
    (resolvedLines zenvA orderAB).map (expectedSalesLine zenvA) =
      [{ item_id := 5, name := "Alpha", rate := .str "9", quantity := 2 }] :=
  ⟨⟨⟨by decide, by decide, by decide⟩,
      order_push_single_salesorder_resolved_lines zenvA orderAB (by decide)
        (by decide) (by decide)⟩,
    by decide⟩

/-- C4: the backend inventory webhook only ever sets absolute levels (its
state effect on the level table is the replay of its `sInvSet` writes, whose
quantities are normalized from the payload and the static Zoho data, not from
the current levels), so applying the same request twice against otherwise
unchanged remote data leaves exactly the inventory levels of a single
application.  This holds for both payload shapes and needs no authorization
hypothesis (a rejected request changes nothing). -/
theorem inventory_webhook_idempotent (host : Host) (secret : Option String)
    (zenv : ZohoEnv) (st : ShopifyState) (req : ZReq) :
    (zohoWebhook host secret zenv
      (zohoWebhook host secret zenv st req).st req).st.inv =
    (zohoWebhook host secret zenv st req).st.inv := by
  unfold zohoWebhook
  cases secret with
  | none => rfl
  | some s =>
    by_cases hs : s = ""
    · simp only [if_pos hs]
    · simp only [if_neg hs]
      by_cases ha : zohoAuthorized host s req = true
      · simp only [ha, not_true, if_false]
        obtain ⟨htr0, hself, hw1⟩ :=
          zohoWebhookBody_spec host zenv req.body (corrSt_refl st)
        obtain ⟨htr, hx1, hx2⟩ := zohoWebhookBody_spec host zenv req.body hself
        obtain ⟨hy1, hy2, hw2⟩ := zohoWebhookBody_spec host zenv req.body
          (corrSt_refl (zohoWebhookBody host zenv st req.body).st)
        rw [hw2, ← htr, hw1, applyWrites_twice]
      · have ha' : zohoAuthorized host s req = false := by
          cases hb : zohoAuthorized host s req
          · rfl
          · exact absurd hb ha
        simp only [ha', Bool.false_eq_true, not_false_iff, if_true]

/-- C6: once authenticated, both webhook handlers answer 200 — also for
payloads whose SKUs do not resolve, which end as benign skips inside the
200-branches — and 401 is produced exactly on authentication failure.  (The
model's vendor environment is total, matching the claim's scope: the 500
branch of the source only fires on unexpected vendor failures.) -/
theorem webhook_status_codes (host : Host) (zsecret ssecret : Option String)
    (dev : Bool) (zenv : ZohoEnv) (st : ShopifyState) (zreq : ZReq)
    (sreq : ShopReq) :
    (zohoWebhook host zsecret zenv st zreq).status =
      (if zohoAuthOk host zsecret zreq then 200 else 401) ∧
    (orderCreatedWebhook host ssecret dev zenv sreq).status =
      (if shopifyHmacValid host ssecret dev sreq then 200 else 401) := by
  constructor
  · unfold zohoWebhook zohoAuthOk
    cases zsecret with
    | none => simp
    | some s =>
      by_cases hs : s = ""
      · simp [hs]
      · by_cases ha : zohoAuthorized host s zreq = true
        · simp [hs, ha, zohoWebhookBody_status]
        · simp only [Bool.not_eq_true] at ha
          simp [hs, ha]
  · unfold orderCreatedWebhook
    by_cases hv : shopifyHmacValid host ssecret dev sreq = true
    · simp [hv, processOrder_status_200]
    · simp only [Bool.not_eq_true] at hv
      simp [hv]

/-- C7: when some page N (and no earlier page) satisfies the stop condition —
zero items, checked first, or a falsy `has_more_page` — the pagination loop
terminates with any fuel of at least N, and, when no item-processing error
aborts the run, it fetches exactly pages 1..N, stopping at N.  (An aborting
error also terminates the loop, earlier.) -/
theorem sync_pagination_terminates_at_first_stop (host : Host) (zenv : ZohoEnv)
    (st : ShopifyState) (N : Nat) (hN : 1 ≤ N)
    (hstop : stopCond (zenv.pages N) = true)
    (hfirst : ∀ m, 1 ≤ m → m < N → stopCond (zenv.pages m) = false)
    (fuel : Nat) (hfuel : N ≤ fuel) :
    ∃ out, syncLoop host zenv fuel 1 st = some out ∧
      (out.err = none → out.pages = List.range' 1 N) := by
  have h1 : 1 + (N - 1) = N := by omega
  obtain ⟨out, hout, hp⟩ := syncLoop_stops_at_first host zenv (N - 1) 1 st fuel
    (by rw [h1]; exact hstop)
    (fun e he => hfirst (1 + e) (Nat.le_add_right 1 e) (by omega))
    (by omega)
  refine ⟨out, hout, fun h => ?_⟩
  have := hp h
  rwa [Nat.sub_add_cancel hN] at this

/-- Witness for C7: with page 1 nonempty (`has_more_page: true`) and page 2
empty but still claiming `has_more_page: true`, the loop with fuel 2 stops at
page 2 — the zero-items check fires before the `has_more_page` check — having
fetched exactly pages [1, 2]. -/
theorem sync_pagination_terminates_at_first_stop_witness :
    (stopCond (zenvPages.pages 2) = true ∧
      (zenvPages.pages 2).has_more_page = true ∧
      stopCond (zenvPages.pages 1) = false) ∧
    ∃ out, syncLoop hostW zenvPages 2 1 stEmpty = some out ∧
      (out.err = none → out.pages = List.range' 1 2) :=
  ⟨⟨by decide, by decide, by decide⟩,
    sync_pagination_terminates_at_first_stop hostW zenvPages stEmpty 2
      (by decide) (by decide)
      (fun m h1 h2 => by
        have hm : m = 1 := Nat.le_antisymm (Nat.lt_succ_iff.mp h2) h1
        subst hm
        decide)
      2 (by decide)⟩

/-- C3: for an item whose SKU `k` is resolvable on both sides (a Zoho item
carries `sku = k` and `findVariantBySKU` resolves `k` to variant `v`), with a
truthy backend price `r`, the sync's per-item body issues a storefront price
update for `v` if and only if the backend price differs from the variant's
current price; and after an error-free run that processed that item's page, a
second run — starting from the state the first run left — issues no price
update for `v` at all (idempotence).  Requires exact SKU matching, distinct
variant ids, and that every same-SKU item in the catalog carries the same
rate `r` (the price the run settles on). -/
theorem sync_price_update_iff_and_second_run_silent (host : Host)
    (zenv : ZohoEnv) (k r : String) (st0 : ShopifyState) (v : Variant)
    (it0 : ZItem) (fuel1 fuel2 start2 : Nat)
    (hmatch : ∀ q s, host.variantMatch q s = true → s = some q)
    (hids : (st0.variants.map fun x => x.id).Nodup)
    (hkne : k ≠ "") (hrne : r ≠ "")
    (hres0 : findVariantBySKU host st0 k = some v)
    (hk0 : it0.sku = some k) (hr0 : it0.rate = some r)
    (hall : ∀ P, ∀ it ∈ (zenv.pages P).items,
      ∀ s, it.sku = some s → s ≠ "" → s = k → it.rate = some r)
    (hok : runOk (syncLoop host zenv fuel1 1 st0) = true)
    (hmem : ∃ P ∈ runPages (syncLoop host zenv fuel1 1 st0),
      it0 ∈ (zenv.pages P).items) :
    ((∃ p, Call.sPriceUpdate v.id p ∈ (syncItem host it0 st0).trace) ↔
      v.price ≠ r) ∧
    ∀ p, Call.sPriceUpdate v.id p ∉
      runTrace (syncLoop host zenv fuel2 start2
        (runSt (syncLoop host zenv fuel1 1 st0) st0)) := by
  refine ⟨syncItem_price_iff host it0 st0 hk0 hkne hr0 hrne hres0, ?_⟩
  cases hrun1 : syncLoop host zenv fuel1 1 st0 with
  | none =>
    rw [hrun1] at hok
    simp [runOk] at hok
  | some out1 =>
    rw [hrun1] at hok hmem
    have herr1 : out1.err = none := by
      simp only [runOk, Option.isNone_iff_eq_none] at hok
      exact hok
    obtain ⟨P, hP, hit0⟩ := hmem
    have h1 := syncLoop_target host zenv hmatch hids hres0 hkne hall fuel1 1 st0
      (corrSt_refl st0) out1 hrun1
    have hest : priceAt out1.st v.id = some r :=
      h1.2.2 P hP it0 hit0 hk0 hr0 hrne herr1
    intro p
    show Call.sPriceUpdate v.id p ∉
      runTrace (syncLoop host zenv fuel2 start2 out1.st)
    cases hrun2 : syncLoop host zenv fuel2 start2 out1.st with
    | none => simp [runTrace]
    | some out2 =>
      simp only [runTrace]
      have h2 := syncLoop_target host zenv hmatch hids hres0 hkne hall fuel2
        start2 out1.st h1.1 out2 hrun2
      exact (h2.2.1 hest).2 p

/-- Witness for C3: storefront variant (id 10, sku "A", price "3") and Zoho
item (sku "A", rate "9").  The first run updates the price exactly because
"3" differs from "9"; the second run, started from the first run's final
state, makes no price call for the variant. -/
theorem sync_price_update_iff_and_second_run_silent_witness :
    runOk (syncLoop hostW zenvA 1 1 stOneVariant) = true ∧
    (((∃ p, Call.sPriceUpdate 10 p ∈ (syncItem hostW zItemA stOneVariant).trace) ↔
        ("3" : String) ≠ "9") ∧
      ∀ p, Call.sPriceUpdate 10 p ∉
        runTrace (syncLoop hostW zenvA 1 1
          (runSt (syncLoop hostW zenvA 1 1 stOneVariant) stOneVariant))) :=
  ⟨by decide,
    sync_price_update_iff_and_second_run_silent hostW zenvA "A" "9"
      stOneVariant ⟨10, some "A", "3", 100⟩ zItemA 1 1 1
      (fun q s h => eq_of_beq h)
      (by decide) (by decide) (by decide) (by decide) rfl rfl
      (by
        intro P it hit s hs hsne hsk
        by_cases hp : P = 1
        · have hi : (zenvA.pages P).items = [zItemA] := by simp [zenvA, hp]
          rw [hi] at hit
          rcases List.mem_singleton.mp hit with rfl
          rfl
        · have hi : (zenvA.pages P).items = [] := by simp [zenvA, hp]
          rw [hi] at hit
          cases hit)
      (by decide)
      ⟨1, by decide, by decide⟩⟩

/-- C9: in development mode a storefront order-created request without the
`x-shopify-hmac-sha256` header is accepted without verification: the HMAC
gate is short-circuited to valid, the handler behaves as its post-auth
processing, and the response is not 401. -/
theorem dev_mode_missing_hmac_bypass (host : Host) (secret : Option String)
    (zenv : ZohoEnv) (req : ShopReq) (h : req.hmacHeader = none) :
    shopifyHmacValid host secret true req = true ∧
    orderCreatedWebhook host secret true zenv req = processOrder zenv req.body ∧
    (orderCreatedWebhook host secret true zenv req).status ≠ 401 := by
  have hv := shopifyHmacValid_dev host secret req
  refine ⟨hv, by simp [orderCreatedWebhook, hv], ?_⟩
  simp [orderCreatedWebhook, hv, processOrder_status_200]

/-- Witness for C9: a concrete header-less development request is processed
and not rejected. -/
theorem dev_mode_missing_hmac_bypass_witness :
    ({ hmacHeader := none, rawBody := "{}", body := orderAB } : ShopReq).hmacHeader = none ∧
    shopifyHmacValid hostW (some "sec") true
      { hmacHeader := none, rawBody := "{}", body := orderAB } = true ∧
    orderCreatedWebhook hostW (some "sec") true zenvA
      { hmacHeader := none, rawBody := "{}", body := orderAB } =
      processOrder zenvA orderAB ∧
    (orderCreatedWebhook hostW (some "sec") true zenvA
      { hmacHeader := none, rawBody := "{}", body := orderAB }).status ≠ 401 :=
  ⟨rfl,
    dev_mode_missing_hmac_bypass hostW (some "sec") zenvA
      { hmacHeader := none, rawBody := "{}", body := orderAB } rfl⟩

/-- C10: the development bypass is not limited to the missing-header case: a
development-mode request whose HMAC header is present (and truthy) but fails
verification is still accepted and processed, never answered 401. -/
theorem dev_mode_invalid_hmac_bypass (host : Host) (secret : Option String)
    (zenv : ZohoEnv) (req : ShopReq) (h : String)
    (hh : req.hmacHeader = some h) (hne : h ≠ "")
    (hfail : verifyHmac host secret req.hmacHeader req.rawBody = false) :
    shopifyHmacValid host secret true req = true ∧
    orderCreatedWebhook host secret true zenv req = processOrder zenv req.body ∧
    (orderCreatedWebhook host secret true zenv req).status ≠ 401 := by
  have hv := shopifyHmacValid_dev host secret req
  refine ⟨hv, by simp [orderCreatedWebhook, hv], ?_⟩
  simp [orderCreatedWebhook, hv, processOrder_status_200]

/-- Witness for C10: a concrete development request with the invalid
signature header "X" is processed and not rejected. -/
theorem dev_mode_invalid_hmac_bypass_witness :
    verifyHmac hostW (some "sec")
      ({ hmacHeader := some "X", rawBody := "{}", body := orderAB } : ShopReq).hmacHeader
      "{}" = false ∧
    shopifyHmacValid hostW (some "sec") true
      { hmacHeader := some "X", rawBody := "{}", body := orderAB } = true ∧
    orderCreatedWebhook hostW (some "sec") true zenvA
      { hmacHeader := some "X", rawBody := "{}", body := orderAB } =
      processOrder zenvA orderAB ∧
    (orderCreatedWebhook hostW (some "sec") true zenvA
      { hmacHeader := some "X", rawBody := "{}", body := orderAB }).status ≠ 401 :=
  ⟨by decide,
    dev_mode_invalid_hmac_bypass hostW (some "sec") zenvA
      { hmacHeader := some "X", rawBody := "{}", body := orderAB } "X" rfl
      (by decide) (by decide)⟩

end SyncBridge
